import Mathlib

set_option maxRecDepth 8192

/-!
A shallow embedding of the koute/linux-input crate and proofs about it.

The definitions below are translated from the Rust sources:
  * input_sys.rs  : the wire-level records and the code/kind enumerations
    produced by the define_enum! macro (macros.rs);
  * input.rs      : the raw event codec, the force feedback effect codec,
    poll_read, Device::open and the force feedback helpers;
  * event_bits_iter.rs : the capability bitmask iterator;
  * uinput.rs     : VirtualDevice::create, the force feedback transaction
    guards and poll_force_feedback.

Machine integers are modelled as Nat (unsigned) or Int (signed) with explicit
reductions modulo 2^w where the code performs a narrowing cast.  Kernel
interaction is modelled by explicit oracles: a syscall outcome is an input of
the embedded function, and the sequence of performed kernel actions is
returned as a trace.  Code that panics (via unwrap, assert or unimplemented)
is modelled with an explicit panic outcome or with Option.
-/

/-- First-match lookup of a numeric code in a (code, variant) table, falling back
to the given constructor: the shape of the `From<u16>` conversion generated by the
`define_enum!` macro in macros.rs (one match arm per named variant, in declaration
order, with `Other(value)` as the default arm). -/
def enumFromTable {α : Type} (table : List (Nat × α)) (other : Nat → α) (code : Nat) : α :=
  match table.find? (fun p => p.1 = code) with
  | some p => p.2
  | none => other code


/-- The `EventKind` from `define_enum!` in input_sys.rs: named variants plus the numeric fallback. -/
inductive EventKind where
  | Synchronization
  | Key
  | RelativeAxis
  | AbsoluteAxis
  | Misc
  | Switch
  | LED
  | Sound
  | AutoRepeat
  | ForceFeedback
  | Power
  | ForceFeedbackStatus
  | Other (code : Nat)
deriving DecidableEq

/-- The `EventKind::raw` / `From<EventKind> for u16`: variant to numeric code. -/
def EventKind.raw : EventKind → Nat
  | .Synchronization => 0x00
  | .Key => 0x01
  | .RelativeAxis => 0x02
  | .AbsoluteAxis => 0x03
  | .Misc => 0x04
  | .Switch => 0x05
  | .LED => 0x11
  | .Sound => 0x12
  | .AutoRepeat => 0x14
  | .ForceFeedback => 0x15
  | .Power => 0x16
  | .ForceFeedbackStatus => 0x17
  | .Other code => code

/-- The (code, variant) pairs of `EventKind`, in declaration order. -/
def EventKind.table : List (Nat × EventKind) := [
  (0x00, .Synchronization),
  (0x01, .Key),
  (0x02, .RelativeAxis),
  (0x03, .AbsoluteAxis),
  (0x04, .Misc),
  (0x05, .Switch),
  (0x11, .LED),
  (0x12, .Sound),
  (0x14, .AutoRepeat),
  (0x15, .ForceFeedback),
  (0x16, .Power),
  (0x17, .ForceFeedbackStatus)]

/-- The `From<u16> for EventKind`: numeric code to variant, unmatched codes to `Other`. -/
def EventKind.fromNat (code : Nat) : EventKind :=
  enumFromTable EventKind.table .Other code


/-- The `Key` from `define_enum!` in input_sys.rs: named variants plus the numeric fallback. -/
inductive Key where
  | Escape
  | Digit1
  | Digit2
  | Digit3
  | Digit4
  | Digit5
  | Digit6
  | Digit7
  | Digit8
  | Digit9
  | Digit0
  | Minus
  | Equal
  | Backspace
  | Tab
  | Q
  | W
  | E
  | R
  | T
  | Y
  | U
  | I
  | O
  | P
  | LeftBrace
  | RightBrace
  | Enter
  | LeftCtrl
  | A
  | S
  | D
  | F
  | G
  | H
  | J
  | K
  | L
  | Semicolon
  | Apostrophe
  | Grave
  | LeftShift
  | Backslash
  | Z
  | X
  | C
  | V
  | B
  | N
  | M
  | Comma
  | Dot
  | Slash
  | RightShift
  | KeypadAsterisk
  | LeftAlt
  | Space
  | CapsLock
  | F1
  | F2
  | F3
  | F4
  | F5
  | F6
  | F7
  | F8
  | F9
  | F10
  | NumLock
  | ScrollLock
  | Keypad7
  | Keypad8
  | Keypad9
  | KeypadMinus
  | Keypad4
  | Keypad5
  | Keypad6
  | KeypadPlus
  | Keypad1
  | Keypad2
  | Keypad3
  | Keypad0
  | KeypadDot
  | F11
  | F12
  | KeypadEnter
  | RightCtrl
  | KeypadSlash
  | SysRq
  | RightAlt
  | Home
  | Up
  | PageUp
  | Left
  | Right
  | End
  | Down
  | PageDown
  | Insert
  | Delete
  | KeypadEqual
  | KeypadPlusMinus
  | Pause
  | KeypadComma
  | LeftMeta
  | RightMeta
  | MouseLeft
  | MouseRight
  | MouseMiddle
  | MouseExtra1
  | MouseExtra2
  | MouseExtra3
  | MouseExtra4
  | MouseExtra5
  | PadSouth
  | PadEast
  | PadNorth
  | PadWest
  | ShoulderLeft
  | ShoulderRight
  | ShoulderLeftLower
  | ShoulderRightLower
  | Select
  | Start
  | HomeButton
  | StickLeft
  | StickRight
  | PadUp
  | PadDown
  | PadLeft
  | PadRight
  | ButtonMisc
  | TriggerHappy
  | Other (code : Nat)

/-- The `Key::raw` / `From<Key> for u16`: variant to numeric code. -/
def Key.raw : Key → Nat
  | .Escape => 1
  | .Digit1 => 2
  | .Digit2 => 3
  | .Digit3 => 4
  | .Digit4 => 5
  | .Digit5 => 6
  | .Digit6 => 7
  | .Digit7 => 8
  | .Digit8 => 9
  | .Digit9 => 10
  | .Digit0 => 11
  | .Minus => 12
  | .Equal => 13
  | .Backspace => 14
  | .Tab => 15
  | .Q => 16
  | .W => 17
  | .E => 18
  | .R => 19
  | .T => 20
  | .Y => 21
  | .U => 22
  | .I => 23
  | .O => 24
  | .P => 25
  | .LeftBrace => 26
  | .RightBrace => 27
  | .Enter => 28
  | .LeftCtrl => 29
  | .A => 30
  | .S => 31
  | .D => 32
  | .F => 33
  | .G => 34
  | .H => 35
  | .J => 36
  | .K => 37
  | .L => 38
  | .Semicolon => 39
  | .Apostrophe => 40
  | .Grave => 41
  | .LeftShift => 42
  | .Backslash => 43
  | .Z => 44
  | .X => 45
  | .C => 46
  | .V => 47
  | .B => 48
  | .N => 49
  | .M => 50
  | .Comma => 51
  | .Dot => 52
  | .Slash => 53
  | .RightShift => 54
  | .KeypadAsterisk => 55
  | .LeftAlt => 56
  | .Space => 57
  | .CapsLock => 58
  | .F1 => 59
  | .F2 => 60
  | .F3 => 61
  | .F4 => 62
  | .F5 => 63
  | .F6 => 64
  | .F7 => 65
  | .F8 => 66
  | .F9 => 67
  | .F10 => 68
  | .NumLock => 69
  | .ScrollLock => 70
  | .Keypad7 => 71
  | .Keypad8 => 72
  | .Keypad9 => 73
  | .KeypadMinus => 74
  | .Keypad4 => 75
  | .Keypad5 => 76
  | .Keypad6 => 77
  | .KeypadPlus => 78
  | .Keypad1 => 79
  | .Keypad2 => 80
  | .Keypad3 => 81
  | .Keypad0 => 82
  | .KeypadDot => 83
  | .F11 => 87
  | .F12 => 88
  | .KeypadEnter => 96
  | .RightCtrl => 97
  | .KeypadSlash => 98
  | .SysRq => 99
  | .RightAlt => 100
  | .Home => 102
  | .Up => 103
  | .PageUp => 104
  | .Left => 105
  | .Right => 106
  | .End => 107
  | .Down => 108
  | .PageDown => 109
  | .Insert => 110
  | .Delete => 111
  | .KeypadEqual => 117
  | .KeypadPlusMinus => 118
  | .Pause => 119
  | .KeypadComma => 121
  | .LeftMeta => 125
  | .RightMeta => 126
  | .MouseLeft => 0x110
  | .MouseRight => 0x111
  | .MouseMiddle => 0x112
  | .MouseExtra1 => 0x113
  | .MouseExtra2 => 0x114
  | .MouseExtra3 => 0x115
  | .MouseExtra4 => 0x116
  | .MouseExtra5 => 0x117
  | .PadSouth => 0x130
  | .PadEast => 0x131
  | .PadNorth => 0x133
  | .PadWest => 0x134
  | .ShoulderLeft => 0x136
  | .ShoulderRight => 0x137
  | .ShoulderLeftLower => 0x138
  | .ShoulderRightLower => 0x139
  | .Select => 0x13a
  | .Start => 0x13b
  | .HomeButton => 0x13c
  | .StickLeft => 0x13d
  | .StickRight => 0x13e
  | .PadUp => 0x220
  | .PadDown => 0x221
  | .PadLeft => 0x222
  | .PadRight => 0x223
  | .ButtonMisc => 0x100
  | .TriggerHappy => 0x2c0
  | .Other code => code

def Key.tablePart0 : List (Nat × Key) := [
  (1, .Escape),
  (2, .Digit1),
  (3, .Digit2),
  (4, .Digit3),
  (5, .Digit4),
  (6, .Digit5),
  (7, .Digit6),
  (8, .Digit7),
  (9, .Digit8),
  (10, .Digit9),
  (11, .Digit0),
  (12, .Minus),
  (13, .Equal),
  (14, .Backspace),
  (15, .Tab),
  (16, .Q),
  (17, .W),
  (18, .E),
  (19, .R),
  (20, .T)]

def Key.tablePart1 : List (Nat × Key) := [
  (21, .Y),
  (22, .U),
  (23, .I),
  (24, .O),
  (25, .P),
  (26, .LeftBrace),
  (27, .RightBrace),
  (28, .Enter),
  (29, .LeftCtrl),
  (30, .A),
  (31, .S),
  (32, .D),
  (33, .F),
  (34, .G),
  (35, .H),
  (36, .J),
  (37, .K),
  (38, .L),
  (39, .Semicolon),
  (40, .Apostrophe)]

def Key.tablePart2 : List (Nat × Key) := [
  (41, .Grave),
  (42, .LeftShift),
  (43, .Backslash),
  (44, .Z),
  (45, .X),
  (46, .C),
  (47, .V),
  (48, .B),
  (49, .N),
  (50, .M),
  (51, .Comma),
  (52, .Dot),
  (53, .Slash),
  (54, .RightShift),
  (55, .KeypadAsterisk),
  (56, .LeftAlt),
  (57, .Space),
  (58, .CapsLock),
  (59, .F1),
  (60, .F2)]

def Key.tablePart3 : List (Nat × Key) := [
  (61, .F3),
  (62, .F4),
  (63, .F5),
  (64, .F6),
  (65, .F7),
  (66, .F8),
  (67, .F9),
  (68, .F10),
  (69, .NumLock),
  (70, .ScrollLock),
  (71, .Keypad7),
  (72, .Keypad8),
  (73, .Keypad9),
  (74, .KeypadMinus),
  (75, .Keypad4),
  (76, .Keypad5),
  (77, .Keypad6),
  (78, .KeypadPlus),
  (79, .Keypad1),
  (80, .Keypad2)]

def Key.tablePart4 : List (Nat × Key) := [
  (81, .Keypad3),
  (82, .Keypad0),
  (83, .KeypadDot),
  (87, .F11),
  (88, .F12),
  (96, .KeypadEnter),
  (97, .RightCtrl),
  (98, .KeypadSlash),
  (99, .SysRq),
  (100, .RightAlt),
  (102, .Home),
  (103, .Up),
  (104, .PageUp),
  (105, .Left),
  (106, .Right),
  (107, .End),
  (108, .Down),
  (109, .PageDown),
  (110, .Insert),
  (111, .Delete)]

def Key.tablePart5 : List (Nat × Key) := [
  (117, .KeypadEqual),
  (118, .KeypadPlusMinus),
  (119, .Pause),
  (121, .KeypadComma),
  (125, .LeftMeta),
  (126, .RightMeta),
  (0x110, .MouseLeft),
  (0x111, .MouseRight),
  (0x112, .MouseMiddle),
  (0x113, .MouseExtra1),
  (0x114, .MouseExtra2),
  (0x115, .MouseExtra3),
  (0x116, .MouseExtra4),
  (0x117, .MouseExtra5),
  (0x130, .PadSouth),
  (0x131, .PadEast),
  (0x133, .PadNorth),
  (0x134, .PadWest),
  (0x136, .ShoulderLeft),
  (0x137, .ShoulderRight)]

def Key.tablePart6 : List (Nat × Key) := [
  (0x138, .ShoulderLeftLower),
  (0x139, .ShoulderRightLower),
  (0x13a, .Select),
  (0x13b, .Start),
  (0x13c, .HomeButton),
  (0x13d, .StickLeft),
  (0x13e, .StickRight),
  (0x220, .PadUp),
  (0x221, .PadDown),
  (0x222, .PadLeft),
  (0x223, .PadRight),
  (0x100, .ButtonMisc),
  (0x2c0, .TriggerHappy)]

/-- The (code, variant) pairs of `Key`, in declaration order (in chunks to
keep elaboration cheap). -/
def Key.table : List (Nat × Key) :=
  Key.tablePart0 ++ Key.tablePart1 ++ Key.tablePart2 ++ Key.tablePart3 ++ Key.tablePart4 ++ Key.tablePart5 ++ Key.tablePart6

/-- The `From<u16> for Key`: numeric code to variant, unmatched codes to `Other`. -/
def Key.fromNat (code : Nat) : Key :=
  enumFromTable Key.table .Other code

/-- Injective tagging of `Key`, used only to build its equality instance. -/
def Key.encTag : Key → Bool × Nat
  | .Other code => (true, code)
  | k => (false, k.raw)

/-- Left inverse of `Key.encTag`. -/
def Key.decTag : Bool × Nat → Key
  | (true, code) => .Other code
  | (false, code) => Key.fromNat code

instance : DecidableEq Key := fun a b =>
  if h : a.encTag = b.encTag then
    .isTrue (by
      have h2 := congrArg Key.decTag h
      have ha : Key.decTag a.encTag = a := by cases a <;> rfl
      have hb : Key.decTag b.encTag = b := by cases b <;> rfl
      rw [ha, hb] at h2
      exact h2)
  else .isFalse (fun hab => h (congrArg Key.encTag hab))


/-- The `RelativeAxis` from `define_enum!` in input_sys.rs: named variants plus the numeric fallback. -/
inductive RelativeAxis where
  | X
  | Y
  | Z
  | RX
  | RY
  | RZ
  | Wheel
  | WheelHiRes
  | Other (code : Nat)
deriving DecidableEq

/-- The `RelativeAxis::raw` / `From<RelativeAxis> for u16`: variant to numeric code. -/
def RelativeAxis.raw : RelativeAxis → Nat
  | .X => 0
  | .Y => 1
  | .Z => 2
  | .RX => 3
  | .RY => 4
  | .RZ => 5
  | .Wheel => 8
  | .WheelHiRes => 11
  | .Other code => code

/-- The (code, variant) pairs of `RelativeAxis`, in declaration order. -/
def RelativeAxis.table : List (Nat × RelativeAxis) := [
  (0, .X),
  (1, .Y),
  (2, .Z),
  (3, .RX),
  (4, .RY),
  (5, .RZ),
  (8, .Wheel),
  (11, .WheelHiRes)]

/-- The `From<u16> for RelativeAxis`: numeric code to variant, unmatched codes to `Other`. -/
def RelativeAxis.fromNat (code : Nat) : RelativeAxis :=
  enumFromTable RelativeAxis.table .Other code


/-- The `AbsoluteAxis` from `define_enum!` in input_sys.rs: named variants plus the numeric fallback. -/
inductive AbsoluteAxis where
  | X
  | Y
  | Z
  | RX
  | RY
  | RZ
  | Hat0X
  | Hat0Y
  | Hat1X
  | Hat1Y
  | Hat2X
  | Hat2Y
  | Misc
  | Other (code : Nat)
deriving DecidableEq

/-- The `AbsoluteAxis::raw` / `From<AbsoluteAxis> for u16`: variant to numeric code. -/
def AbsoluteAxis.raw : AbsoluteAxis → Nat
  | .X => 0
  | .Y => 1
  | .Z => 2
  | .RX => 3
  | .RY => 4
  | .RZ => 5
  | .Hat0X => 16
  | .Hat0Y => 17
  | .Hat1X => 18
  | .Hat1Y => 19
  | .Hat2X => 20
  | .Hat2Y => 21
  | .Misc => 40
  | .Other code => code

/-- The (code, variant) pairs of `AbsoluteAxis`, in declaration order. -/
def AbsoluteAxis.table : List (Nat × AbsoluteAxis) := [
  (0, .X),
  (1, .Y),
  (2, .Z),
  (3, .RX),
  (4, .RY),
  (5, .RZ),
  (16, .Hat0X),
  (17, .Hat0Y),
  (18, .Hat1X),
  (19, .Hat1Y),
  (20, .Hat2X),
  (21, .Hat2Y),
  (40, .Misc)]

/-- The `From<u16> for AbsoluteAxis`: numeric code to variant, unmatched codes to `Other`. -/
def AbsoluteAxis.fromNat (code : Nat) : AbsoluteAxis :=
  enumFromTable AbsoluteAxis.table .Other code


/-- The `Bus` from `define_enum!` in input_sys.rs: named variants plus the numeric fallback. -/
inductive Bus where
  | PCI
  | USB
  | HIL
  | Bluetooth
  | Virtual
  | ISA
  | Host
  | Other (code : Nat)
deriving DecidableEq

/-- The `Bus::raw` / `From<Bus> for u16`: variant to numeric code. -/
def Bus.raw : Bus → Nat
  | .PCI => 0x01
  | .USB => 0x03
  | .HIL => 0x04
  | .Bluetooth => 0x05
  | .Virtual => 0x06
  | .ISA => 0x10
  | .Host => 0x19
  | .Other code => code

/-- The (code, variant) pairs of `Bus`, in declaration order. -/
def Bus.table : List (Nat × Bus) := [
  (0x01, .PCI),
  (0x03, .USB),
  (0x04, .HIL),
  (0x05, .Bluetooth),
  (0x06, .Virtual),
  (0x10, .ISA),
  (0x19, .Host)]

/-- The `From<u16> for Bus`: numeric code to variant, unmatched codes to `Other`. -/
def Bus.fromNat (code : Nat) : Bus :=
  enumFromTable Bus.table .Other code


/-- The `ForceFeedback` from `define_enum!` in input_sys.rs: named variants plus the numeric fallback. -/
inductive ForceFeedback where
  | Rumble
  | Other (code : Nat)
deriving DecidableEq

/-- The `ForceFeedback::raw` / `From<ForceFeedback> for u16`: variant to numeric code. -/
def ForceFeedback.raw : ForceFeedback → Nat
  | .Rumble => 0x50
  | .Other code => code

/-- The (code, variant) pairs of `ForceFeedback`, in declaration order. -/
def ForceFeedback.table : List (Nat × ForceFeedback) := [
  (0x50, .Rumble)]

/-- The `From<u16> for ForceFeedback`: numeric code to variant, unmatched codes to `Other`. -/
def ForceFeedback.fromNat (code : Nat) : ForceFeedback :=
  enumFromTable ForceFeedback.table .Other code

/-- The `Timestamp` (input_sys.rs): seconds and microseconds, platform signed integers. -/
structure Timestamp where
  sec : Int
  usec : Int
deriving DecidableEq

/-- The `RawInputEvent` (input_sys.rs): the fixed wire record; `kind` and `code` are
u16, `value` is i32. -/
structure RawInputEvent where
  timestamp : Timestamp
  kind : Nat
  code : Nat
  value : Int
deriving DecidableEq

/-- The `InputEventBody` (input.rs). -/
inductive InputEventBody where
  | KeyPress (key : Key)
  | KeyRelease (key : Key)
  | RelativeMove (axis : RelativeAxis) (delta : Int)
  | AbsoluteMove (axis : AbsoluteAxis) (position : Int)
  | Flush
  | Dropped
  | Other (kind : EventKind) (code : Nat) (value : Int)
deriving DecidableEq

/-- The `InputEvent` (input.rs). -/
structure InputEvent where
  timestamp : Timestamp
  body : InputEventBody
deriving DecidableEq

/-- The `impl From<RawInputEvent> for InputEvent` (input.rs, lines 98-120): the decode
direction of the raw event codec.  The Rust match arms with guards are a cascade
of conditionals, kept in the same priority order. -/
def InputEvent.fromRaw (raw : RawInputEvent) : InputEvent :=
  let kind := EventKind.fromNat raw.kind
  let body : InputEventBody :=
    if kind = .Key ∧ raw.value = 1 then .KeyPress (Key.fromNat raw.code)
    else if kind = .Key ∧ raw.value = 0 then .KeyRelease (Key.fromNat raw.code)
    else if kind = .RelativeAxis then .RelativeMove (RelativeAxis.fromNat raw.code) raw.value
    else if kind = .AbsoluteAxis then .AbsoluteMove (AbsoluteAxis.fromNat raw.code) raw.value
    else if kind = .Synchronization ∧ raw.code = 0 ∧ raw.value = 0 then .Flush
    else if kind = .Synchronization ∧ raw.code = 3 ∧ raw.value = 0 then .Dropped
    else .Other (EventKind.fromNat raw.kind) raw.code raw.value
  { timestamp := raw.timestamp, body := body }

/-- The `impl From<InputEvent> for RawInputEvent` (input.rs, lines 122-141): the encode
direction of the raw event codec. -/
def RawInputEvent.fromEvent (event : InputEvent) : RawInputEvent :=
  let kcv : EventKind × Nat × Int :=
    match event.body with
    | .KeyPress key => (.Key, key.raw, 1)
    | .KeyRelease key => (.Key, key.raw, 0)
    | .RelativeMove axis delta => (.RelativeAxis, axis.raw, delta)
    | .AbsoluteMove axis position => (.AbsoluteAxis, axis.raw, position)
    | .Flush => (.Synchronization, 0, 0)
    | .Dropped => (.Synchronization, 3, 0)
    | .Other kind code value => (kind, code, value)
  { timestamp := event.timestamp, kind := kcv.1.raw, code := kcv.2.1, value := kcv.2.2 }

/-- The decode rules as worded in the specification, over the raw numeric kind:
kind=Key(1) & value=1 is KeyPress; kind=Key(1) & value=0 is KeyRelease;
kind=RelativeAxis(2) is RelativeMove; kind=AbsoluteAxis(3) is AbsoluteMove;
kind=Synchronization(0) & code=0 & value=0 is Flush; & code=3 & value=0 is
Dropped; anything else is Other with kind, code and value preserved verbatim.
This is the comparison definition for the refinement claim about the decode
direction; `InputEvent.fromRaw` above is the one translated from the source. -/
def decodeBodySpec (kind code : Nat) (value : Int) : InputEventBody :=
  if kind = 1 ∧ value = 1 then .KeyPress (Key.fromNat code)
  else if kind = 1 ∧ value = 0 then .KeyRelease (Key.fromNat code)
  else if kind = 2 then .RelativeMove (RelativeAxis.fromNat code) value
  else if kind = 3 then .AbsoluteMove (AbsoluteAxis.fromNat code) value
  else if kind = 0 ∧ code = 0 ∧ value = 0 then .Flush
  else if kind = 0 ∧ code = 3 ∧ value = 0 then .Dropped
  else .Other (EventKind.fromNat kind) code value

/-- Is the body the `Other` escape-hatch variant? -/
def InputEventBody.isOther : InputEventBody → Bool
  | .Other _ _ _ => true
  | _ => false

/-- The numeric codes embedded in a body decode back to themselves.  A code such
as `Key.Other 1` is not canonical: its numeric value 1 decodes to `Key.Escape`. -/
def InputEventBody.canonicalCodes : InputEventBody → Bool
  | .KeyPress key => decide (Key.fromNat key.raw = key)
  | .KeyRelease key => decide (Key.fromNat key.raw = key)
  | .RelativeMove axis _ => decide (RelativeAxis.fromNat axis.raw = axis)
  | .AbsoluteMove axis _ => decide (AbsoluteAxis.fromNat axis.raw = axis)
  | .Flush => true
  | .Dropped => true
  | .Other _ _ _ => true

/-- The `std::time::Duration`: whole seconds plus a sub-second nanosecond part. -/
structure Duration where
  secs : Nat
  nanos : Nat
deriving DecidableEq

/-- The `Duration::as_millis`: total whole milliseconds. -/
def Duration.asMillis (d : Duration) : Nat :=
  d.secs * 1000 + d.nanos / 1000000

/-- The `Duration::from_millis`. -/
def Duration.fromMillis (ms : Nat) : Duration :=
  { secs := ms / 1000, nanos := ms % 1000 * 1000000 }

/-- The `FF_RUMBLE` (input_sys.rs). -/
def FF_RUMBLE : Nat := 0x50

/-- The `FF_GAIN` (input_sys.rs). -/
def FF_GAIN : Nat := 0x60

/-- The `RawForceFeedbackTrigger` (input_sys.rs). -/
structure RawForceFeedbackTrigger where
  button : Nat
  interval : Nat
deriving DecidableEq

/-- The `RawForceFeedbackReplay` (input_sys.rs): length and delay are u16. -/
structure RawForceFeedbackReplay where
  length : Nat
  delay : Nat
deriving DecidableEq

/-- The `RawForceFeedbackRumbleEffect` (input_sys.rs). -/
structure RawForceFeedbackRumbleEffect where
  strong_magnitude : Nat
  weak_magnitude : Nat
deriving DecidableEq

/-- The `RawForceFeedbackBody` (input_sys.rs) is a C union; the crate only ever
writes and reads its `rumble` member (the other members are never constructed),
so the embedding models exactly that member. -/
structure RawForceFeedbackBody where
  rumble : RawForceFeedbackRumbleEffect
deriving DecidableEq

/-- The `RawForceFeedbackEffect` (input_sys.rs): `kind` is u16, `id` is i16. -/
structure RawForceFeedbackEffect where
  kind : Nat
  id : Int
  direction : Nat
  trigger : RawForceFeedbackTrigger
  replay : RawForceFeedbackReplay
  body : RawForceFeedbackBody
deriving DecidableEq

/-- The `ForceFeedbackEffectKind` (input.rs). -/
inductive ForceFeedbackEffectKind where
  | Rumble (strong_magnitude : Nat) (weak_magnitude : Nat)
deriving DecidableEq

/-- The `ForceFeedbackEffectKind::from_raw` (input.rs, lines 261-272): only the
`FF_RUMBLE` family is modeled; any other kind hits `unimplemented!` in the
source, modeled here as `none`. -/
def ForceFeedbackEffectKind.fromRaw (kind : Nat) (body : RawForceFeedbackBody) :
    Option ForceFeedbackEffectKind :=
  if kind = FF_RUMBLE then
    some (.Rumble body.rumble.strong_magnitude body.rumble.weak_magnitude)
  else
    none

/-- The `ForceFeedbackDuration` (input.rs). -/
inductive ForceFeedbackDuration where
  | Finite (duration : Duration)
  | Infinite
deriving DecidableEq

/-- The `ForceFeedbackEffect` (input.rs): `id` is i16. -/
structure ForceFeedbackEffect where
  id : Int
  direction : Nat
  kind : ForceFeedbackEffectKind
  duration : ForceFeedbackDuration
  delay : Duration
  trigger : RawForceFeedbackTrigger
deriving DecidableEq

/-- The `ForceFeedbackEffect::from_raw` (input.rs, lines 292-305): a raw replay
length of 0 decodes to `Infinite`, any other length to a finite duration of
that many milliseconds. -/
def ForceFeedbackEffect.fromRaw (raw : RawForceFeedbackEffect) :
    Option ForceFeedbackEffect :=
  (ForceFeedbackEffectKind.fromRaw raw.kind raw.body).map fun kind =>
    { id := raw.id,
      direction := raw.direction,
      kind := kind,
      trigger := raw.trigger,
      duration :=
        if raw.replay.length = 0 then .Infinite
        else .Finite (Duration.fromMillis raw.replay.length),
      delay := Duration.fromMillis raw.replay.delay }

/-- The `convert_and_clip` (input.rs, lines 307-314): milliseconds clipped to
0x7fff, then cast to u16 (the cast is the source's `as u16`; in the branch
where it applies the value already fits). -/
def convert_and_clip (duration : Duration) : Nat :=
  let ms := duration.asMillis
  if ms > 0x7fff then 0x7fff else ms % 65536

/-- The `impl From<ForceFeedbackEffect> for RawForceFeedbackEffect` (input.rs,
lines 316-343). -/
def RawForceFeedbackEffect.fromEffect (effect : ForceFeedbackEffect) :
    RawForceFeedbackEffect :=
  { id := effect.id,
    direction := effect.direction,
    trigger := effect.trigger,
    replay :=
      { length :=
          match effect.duration with
          | .Finite duration => convert_and_clip duration
          | .Infinite => 0,
        delay := convert_and_clip effect.delay },
    body :=
      match effect.kind with
      | .Rumble strong_magnitude weak_magnitude =>
        { rumble := { strong_magnitude := strong_magnitude, weak_magnitude := weak_magnitude } },
    kind :=
      match effect.kind with
      | .Rumble _ _ => FF_RUMBLE }

/-- Does a decoded duration denote a finite duration of zero milliseconds? -/
def ForceFeedbackDuration.isFiniteZero : ForceFeedbackDuration → Bool
  | .Finite d => d.asMillis == 0
  | .Infinite => false

/-- The `EventBitsIter` (event_bits_iter.rs): the mutable iterator state.  The
buffer is the byte buffer (each entry a u8), `index` the current byte position,
`bit` the next bit position inside it, and `byte` the remaining (shifted)
current byte. -/
structure EventBitsIter where
  buffer : List Nat
  index : Nat
  bit : Nat
  byte : Nat
deriving DecidableEq

/-- The `EventBitsIter::new` (event_bits_iter.rs, lines 24-33). -/
def EventBitsIter.new (buffer : List Nat) : EventBitsIter :=
  { buffer := buffer, index := 0, bit := 0, byte := buffer.headD 0 }

/-- The first loop of `EventBitsIter::next` (event_bits_iter.rs, lines 39-47):
advance over zero bytes; the Bool is true when a nonzero byte was found and
false when the buffer is exhausted (the early `return None`).  The returned
state is the iterator state at that point, mutations included. -/
def EventBitsIter.skipZeros (it : EventBitsIter) : EventBitsIter × Bool :=
  if it.byte = 0 then
    if it.buffer.length ≤ it.index + 1 then
      (it, false)
    else
      EventBitsIter.skipZeros
        { it with
          index := it.index + 1,
          byte := it.buffer.getD (it.index + 1) 0,
          bit := 0 }
  else
    (it, true)
termination_by it.buffer.length - it.index

/-- The second loop of `EventBitsIter::next` (event_bits_iter.rs, lines 49-52):
strip low zero bits, returning the shifted byte and bit position.  The source
runs this loop only on a nonzero byte (guaranteed by the first loop); the
zero-byte guard here only makes the function total and is never reached from
`EventBitsIter.next`. -/
def stripLowBits (byte bit : Nat) : Nat × Nat :=
  if byte % 2 = 0 then
    if byte = 0 then (byte, bit)
    else stripLowBits (byte / 2) (bit + 1)
  else
    (byte, bit)
termination_by byte

/-- The `EventBitsIter::next` (event_bits_iter.rs, lines 36-62): the produced item
(if any) together with the successor state.  The source emits
`Some((output as u16).into())` with `output = self.index * 8 + self.bit`: the
position is narrowed to u16 before conversion, modeled by the `% 65536`. -/
def EventBitsIter.next (it : EventBitsIter) : Option Nat × EventBitsIter :=
  match EventBitsIter.skipZeros it with
  | (it1, false) => (none, it1)
  | (it1, true) =>
    let sb := stripLowBits it1.byte it1.bit
    (some ((it1.index * 8 + sb.2) % 65536), { it1 with byte := sb.1 / 2, bit := sb.2 + 1 })

/-- Running `EventBitsIter::next` to exhaustion: the full sequence of emitted
bit positions.  Termination: each `next` either strictly shrinks the current
byte (with the index unchanged) or strictly advances the index. -/
def EventBitsIter.drain (it : EventBitsIter) : List Nat :=
  match h : it.next with
  | (none, _) => []
  | (some v, it2) => v :: it2.drain
termination_by (it.buffer.length - it.index, it.byte)
decreasing_by
  have hbuf : ∀ s : EventBitsIter, (EventBitsIter.skipZeros s).1.buffer = s.buffer := by
    intro s
    induction s using EventBitsIter.skipZeros.induct with
    | case1 s h1 h2 => unfold EventBitsIter.skipZeros; simp [h1, h2]
    | case2 s h1 h2 ih => unfold EventBitsIter.skipZeros; simp only [h1, h2]; simpa using ih
    | case3 s h1 => unfold EventBitsIter.skipZeros; simp [h1]
  have hidx : ∀ s : EventBitsIter,
      (EventBitsIter.skipZeros s).1 = s ∨
        (s.index < (EventBitsIter.skipZeros s).1.index ∧
          (EventBitsIter.skipZeros s).1.index < s.buffer.length) := by
    intro s
    induction s using EventBitsIter.skipZeros.induct with
    | case1 s h1 h2 => unfold EventBitsIter.skipZeros; simp [h1, h2]
    | case2 s h1 h2 ih =>
      unfold EventBitsIter.skipZeros
      simp only [h1, if_true, if_pos, h2, if_neg, if_false]
      right
      rcases ih with ih | ih
      · rw [ih]; simp; omega
      · simp at ih ⊢; omega
    | case3 s h1 => unfold EventBitsIter.skipZeros; simp [h1]
  have htrue : ∀ s : EventBitsIter,
      (EventBitsIter.skipZeros s).2 = true → (EventBitsIter.skipZeros s).1.byte ≠ 0 := by
    intro s
    induction s using EventBitsIter.skipZeros.induct with
    | case1 s h1 h2 => unfold EventBitsIter.skipZeros; simp [h1, h2]
    | case2 s h1 h2 ih => unfold EventBitsIter.skipZeros; simp only [h1, h2]; simpa using ih
    | case3 s h1 => unfold EventBitsIter.skipZeros; simp [h1]
  have hstrip : ∀ b k, b ≠ 0 → (stripLowBits b k).1 ≤ b ∧ (stripLowBits b k).1 ≠ 0 := by
    intro b
    induction b using Nat.strong_induction_on with
    | _ b ih =>
      intro k hb
      unfold stripLowBits
      by_cases h1 : b % 2 = 0
      · rw [if_pos h1, if_neg hb]
        have hb2 : b / 2 ≠ 0 := by omega
        have ih2 := ih (b / 2) (by omega) (k + 1) hb2
        exact ⟨le_trans ih2.1 (Nat.div_le_self b 2), ih2.2⟩
      · rw [if_neg h1]
        exact ⟨le_refl b, hb⟩
  rcases hq : EventBitsIter.skipZeros it with ⟨it1, ok⟩
  unfold EventBitsIter.next at h
  rw [hq] at h
  cases ok with
  | false => simp at h
  | true =>
    simp only at h
    have hb1 : it1.byte ≠ 0 := by have := htrue it; rw [hq] at this; exact this rfl
    have hs := hstrip it1.byte it1.bit hb1
    have hit2 : it2 = ⟨it1.buffer, it1.index, (stripLowBits it1.byte it1.bit).2 + 1,
        (stripLowBits it1.byte it1.bit).1 / 2⟩ := by
      have h2 := congrArg Prod.snd h
      exact h2.symm
    have hbyte : it2.byte < it1.byte := by
      rw [hit2]
      simp only
      have h1 : (stripLowBits it1.byte it1.bit).1 / 2 < (stripLowBits it1.byte it1.bit).1 :=
        Nat.div_lt_self (Nat.pos_of_ne_zero hs.2) (by omega)
      omega
    have hbufit : it1.buffer = it.buffer := by have := hbuf it; rw [hq] at this; exact this
    have hcases := hidx it
    rw [hq] at hcases
    simp only at hcases
    rcases hcases with heq | ⟨hlt, hlen⟩
    · have heqidx : it2.index = it.index := by rw [hit2]; simp [heq]
      have heqbuf : it2.buffer = it.buffer := by rw [hit2]; simp [heq]
      have : it2.byte < it.byte := by rw [heq] at hbyte; exact hbyte
      rw [heqidx, heqbuf]
      exact Prod.Lex.right _ this
    · have hidx2 : it2.index = it1.index := by rw [hit2]
      have hbuf2 : it2.buffer = it.buffer := by rw [hit2]; simpa using hbufit
      apply Prod.Lex.left
      rw [hbuf2, hidx2]
      omega

/-- The `POLLIN` (libc). -/
def POLLIN : Nat := 0x001

/-- The `POLLHUP` (libc). -/
def POLLHUP : Nat := 0x010

/-- The error kind of an OS error, as far as `poll_read` inspects it:
`Interrupted` is `EINTR` (`io::ErrorKind::Interrupted`); everything else is
kept abstract. -/
inductive IoErrorKind where
  | Interrupted
  | OtherError (code : Nat)
deriving DecidableEq

/-- Outcome of the underlying `libc::ppoll` call: negative return with an
error kind, zero return (timeout expired), or positive return with the
returned `revents` mask. -/
inductive PollOutcome where
  | failure (kind : IoErrorKind)
  | timedOut
  | ready (revents : Nat)
deriving DecidableEq

/-- The `poll_read` (input.rs, lines 349-390): the timeout is converted to a
timespec and handed to `ppoll` (whose outcome is the oracle argument here);
a negative result with an interrupted error kind yields `Ok(false)`, any
other negative result propagates the error, a zero result yields `Ok(false)`,
and a positive result reports whether `revents` intersects POLLIN or POLLHUP. -/
def poll_read (timeout : Option Duration) (outcome : PollOutcome) :
    Except IoErrorKind Bool :=
  let _timespec := timeout.map fun t => (t.secs, t.nanos)
  match outcome with
  | .failure kind =>
    if kind = .Interrupted then .ok false
    else .error kind
  | .timedOut => .ok false
  | .ready revents => .ok (decide (revents &&& (POLLIN ||| POLLHUP) ≠ 0))

/-- The `ForceFeedbackEffectUpload` (uinput.rs, lines 59-63): the transaction guard
for a kernel upload request; only the parts relevant to finalization are kept
(the raw request is abstracted to its request id). -/
structure ForceFeedbackEffectUpload where
  request_id : Nat
  is_finished : Bool
deriving DecidableEq

/-- Guard construction in `poll_force_feedback` (uinput.rs, lines 313-317):
a fresh guard starts with `is_finished = false`. -/
def ForceFeedbackEffectUpload.mk0 (request_id : Nat) : ForceFeedbackEffectUpload :=
  { request_id := request_id, is_finished := false }

/-- The `ForceFeedbackEffectUpload::finish` (uinput.rs, lines 84-95): the guard
after the call, and the number of `end_force_feedback_upload` controls issued
(0 when already finished, 1 otherwise).  Both `complete()` and the `Drop` impl
delegate to exactly this function. -/
def ForceFeedbackEffectUpload.finish (g : ForceFeedbackEffectUpload) :
    ForceFeedbackEffectUpload × Nat :=
  if g.is_finished then (g, 0)
  else ({ g with is_finished := true }, 1)

/-- Total number of `end_force_feedback_upload` controls issued by `n`
successive finalizations (any mix of `complete()` and `Drop`) of a guard. -/
def ForceFeedbackEffectUpload.finishCount (g : ForceFeedbackEffectUpload) : Nat → Nat
  | 0 => 0
  | n + 1 =>
    let r := g.finish
    r.2 + r.1.finishCount n

/-- The `ForceFeedbackEffectErase` (uinput.rs, lines 104-108): the transaction
guard for a kernel erase request. -/
structure ForceFeedbackEffectErase where
  request_id : Nat
  effect_id : Nat
  is_finished : Bool
deriving DecidableEq

/-- Guard construction in `poll_force_feedback` (uinput.rs, lines 333-337). -/
def ForceFeedbackEffectErase.mk0 (request_id effect_id : Nat) : ForceFeedbackEffectErase :=
  { request_id := request_id, effect_id := effect_id, is_finished := false }

/-- The `ForceFeedbackEffectErase::finish` (uinput.rs, lines 119-130): the guard
after the call, and the number of `end_force_feedback_erase` controls issued. -/
def ForceFeedbackEffectErase.finish (g : ForceFeedbackEffectErase) :
    ForceFeedbackEffectErase × Nat :=
  if g.is_finished then (g, 0)
  else ({ g with is_finished := true }, 1)

/-- Total number of `end_force_feedback_erase` controls issued by `n`
successive finalizations of a guard. -/
def ForceFeedbackEffectErase.finishCount (g : ForceFeedbackEffectErase) : Nat → Nat
  | 0 => 0
  | n + 1 =>
    let r := g.finish
    r.2 + r.1.finishCount n

/-- The failure reported by `Device::open` (input.rs, lines 419-446), tagged by
the step that produced it. -/
inductive OpenError where
  | openFailed (errno : Nat)
  | getFlagsFailed (errno : Nat)
  | setFlagsFailed (errno : Nat)
  | clockSourceFailed (errno : Nat)
deriving DecidableEq

/-- The outcomes of the system calls performed by `Device::open`, supplied as
an oracle: the `open(2)` result, the raw integer returned by
`fcntl(F_GETFL)`, the raw integer returned by `fcntl(F_SETFL)` (−1 on
failure), and the result of the `EVIOCSCLKID` control setting the clock
source. -/
structure OpenWorld where
  openResult : Option Nat
  getflResult : Int
  getflErrno : Nat
  setflResult : Int
  setflErrno : Nat
  clockResult : Option Nat
deriving DecidableEq

/-- The `Device::open` (input.rs, lines 419-446).  Note the source tests the
`fcntl(F_SETFL, ... | O_NONBLOCK)` return value with `< -1`, faithfully kept
here: `fcntl` reports failure by returning −1, which this comparison does not
catch. -/
def Device.open (w : OpenWorld) : Except OpenError Unit :=
  match w.openResult with
  | some errno => .error (.openFailed errno)
  | none =>
    if w.getflResult < 0 then .error (.getFlagsFailed w.getflErrno)
    else if w.setflResult < -1 then .error (.setFlagsFailed w.setflErrno)
    else
      match w.clockResult with
      | some errno => .error (.clockSourceFailed errno)
      | none => .ok ()

/-- The `EV_UINPUT` (uinput_sys.rs). -/
def EV_UINPUT : Nat := 0x0101

/-- The `UI_FF_UPLOAD` (uinput_sys.rs). -/
def UI_FF_UPLOAD : Nat := 1

/-- The `UI_FF_ERASE` (uinput_sys.rs). -/
def UI_FF_ERASE : Nat := 2

/-- The classification performed by `VirtualDevice::poll_force_feedback`
(uinput.rs, lines 302-365) on a raw event read from the device, with the
kernel interaction of the upload/erase arms abstracted to the carried request
id (`event.value as u32`). -/
inductive ForceFeedbackRequestView where
  | Upload (request_id : Nat)
  | Erase (request_id : Nat)
  | Enable (effect_id : Nat) (cycle_count : Int)
  | Disable (effect_id : Nat)
  | Other (code : Nat) (value : Int)
  | protocolViolation (kind : Nat)
deriving DecidableEq

/-- The event classification of `poll_force_feedback` (uinput.rs): uinput
meta-events carrying an upload or erase request id come first; then direct
force-feedback-kind events, split below `FF_GAIN` into Enable (value > 0) and
Disable (value ≤ 0); at or above `FF_GAIN` into Other; any other kind hits
`unreachable!` in the source, modeled as `protocolViolation`. -/
def classifyForceFeedbackEvent (e : RawInputEvent) : ForceFeedbackRequestView :=
  if e.kind = EV_UINPUT ∧ e.code = UI_FF_UPLOAD then
    .Upload (e.value % 4294967296).toNat
  else if e.kind = EV_UINPUT ∧ e.code = UI_FF_ERASE then
    .Erase (e.value % 4294967296).toNat
  else if e.kind = EventKind.ForceFeedback.raw then
    if e.code < FF_GAIN then
      if e.value > 0 then .Enable e.code e.value
      else .Disable e.code
    else .Other e.code e.value
  else
    .protocolViolation e.kind

/-- The `emit_into` (input.rs, lines 211-231): the raw record written for a body;
the timestamp is always reset to zero. -/
def emittedRawEvent (body : InputEventBody) : RawInputEvent :=
  RawInputEvent.fromEvent { timestamp := { sec := 0, usec := 0 }, body := body }

/-- The body emitted by `Device::enable_force_feedback_effect` (input.rs,
lines 566-572); `effect_id` is the id cast to u16, `cycle_count` the i32
argument. -/
def enableForceFeedbackBody (effect_id : Nat) (cycle_count : Int) : InputEventBody :=
  .Other .ForceFeedback effect_id cycle_count

/-- The body emitted by `Device::disable_force_feedback_effect` (input.rs,
lines 574-580). -/
def disableForceFeedbackBody (effect_id : Nat) : InputEventBody :=
  .Other .ForceFeedback effect_id 0

/-- The `DeviceId` (input.rs). -/
structure DeviceId where
  bus : Bus
  vendor : Nat
  product : Nat
  version : Nat
deriving DecidableEq

/-- The `AbsoluteAxisBit` (input.rs, lines 233-242): all numeric fields are i32. -/
structure AbsoluteAxisBit where
  axis : AbsoluteAxis
  initial_value : Int
  minimum : Int
  maximum : Int
  noise_threshold : Int
  deadzone : Int
  resolution : Int
deriving DecidableEq

/-- The `EventBit` (input.rs, lines 244-250). -/
inductive EventBit where
  | Key (key : Key)
  | RelativeAxis (axis : RelativeAxis)
  | AbsoluteAxis (descriptor : AbsoluteAxisBit)
  | ForceFeedback (bit : ForceFeedback)
deriving DecidableEq

/-- The `DeviceCreateError` (uinput.rs, lines 51-57), with the payloads of the
failure variants abstracted away. -/
inductive DeviceCreateError where
  | DeviceNameTooLong
  | DeviceSetupFailed
  | DeviceCreateFailed
  | IoFailure
deriving DecidableEq

/-- A kernel interaction performed by `VirtualDevice::create` (uinput.rs),
in the order the source performs them. -/
inductive UinputAction where
  | openUinput
  | setKeyBit (code : Nat)
  | setRelativeAxisBit (code : Nat)
  | setAbsoluteAxisBit (code : Nat)
  | absSetup (axis : Nat) (value minimum maximum noise_threshold deadzone resolution : Int)
  | setForceFeedbackBit (code : Nat)
  | setEventBit (kind : Nat)
  | deviceSetup (nameLen : Nat) (ffEffectsMax : Nat)
  | deviceCreate
deriving DecidableEq

/-- The result of `VirtualDevice::create`: success, a structured error, or a
panic (a failed `unwrap` on a declaration control, or the failed
`assert!(maximum >= minimum)`). -/
inductive CreateOutcome where
  | ok
  | err (e : DeviceCreateError)
  | panicked
deriving DecidableEq

/-- The four `has_event_*` flags tracked by `VirtualDevice::create`
(uinput.rs, lines 176-179). -/
structure CreateFlags where
  has_event_key : Bool
  has_event_relative_axis : Bool
  has_event_absolute_axis : Bool
  has_event_force_feedback : Bool
deriving DecidableEq

/-- One iteration of the `for event_bit in event_bits` loop of
`VirtualDevice::create` (uinput.rs, lines 181-226), against an oracle telling
which kernel controls succeed: the controls performed (in order) and, if no
panic occurred, the updated flags.  `none` models a panic: a failed `unwrap`,
or for an absolute axis the failed `assert!(descriptor.maximum >=
descriptor.minimum)` which fires after the axis bit is declared but before
`abs_setup` is issued. -/
def applyEventBit (oracle : UinputAction → Bool) (flags : CreateFlags) :
    EventBit → List UinputAction × Option CreateFlags
  | .Key key =>
    let a := UinputAction.setKeyBit key.raw
    ([a], if oracle a then some { flags with has_event_key := true } else none)
  | .RelativeAxis axis =>
    let a := UinputAction.setRelativeAxisBit axis.raw
    ([a], if oracle a then some { flags with has_event_relative_axis := true } else none)
  | .AbsoluteAxis descriptor =>
    let a := UinputAction.setAbsoluteAxisBit descriptor.axis.raw
    if oracle a then
      if descriptor.maximum ≥ descriptor.minimum then
        let s := UinputAction.absSetup descriptor.axis.raw
          ((descriptor.maximum - descriptor.minimum) / 2 + descriptor.minimum)
          descriptor.minimum descriptor.maximum
          descriptor.noise_threshold descriptor.deadzone descriptor.resolution
        ([a, s],
          if oracle s then some { flags with has_event_absolute_axis := true } else none)
      else
        ([a], none)
    else
      ([a], none)
  | .ForceFeedback bit =>
    let a := UinputAction.setForceFeedbackBit bit.raw
    ([a], if oracle a then some { flags with has_event_force_feedback := true } else none)

/-- The whole `for event_bit in event_bits` loop: controls performed, and the
final flags unless some iteration panicked. -/
def processBits (oracle : UinputAction → Bool) :
    List EventBit → CreateFlags → List UinputAction × Option CreateFlags
  | [], flags => ([], some flags)
  | b :: rest, flags =>
    match applyEventBit oracle flags b with
    | (as, none) => (as, none)
    | (as, some flags2) =>
      let r := processBits oracle rest flags2
      (as ++ r.1, r.2)

/-- The `device_set_event_bit` declarations made for the touched event kinds
(uinput.rs, lines 228-250), in source order. -/
def eventKindBits (flags : CreateFlags) : List UinputAction :=
  (if flags.has_event_key then [UinputAction.setEventBit EventKind.Key.raw] else []) ++
  (if flags.has_event_relative_axis then [UinputAction.setEventBit EventKind.RelativeAxis.raw] else []) ++
  (if flags.has_event_absolute_axis then [UinputAction.setEventBit EventKind.AbsoluteAxis.raw] else []) ++
  (if flags.has_event_force_feedback then [UinputAction.setEventBit EventKind.ForceFeedback.raw] else [])

/-- Run a list of controls that are each followed by `.unwrap()`: the prefix
of controls actually issued (up to and including the first failing one) and
whether all succeeded. -/
def runUnwrapped (oracle : UinputAction → Bool) : List UinputAction → List UinputAction × Bool
  | [] => ([], true)
  | a :: rest =>
    if oracle a then
      let r := runUnwrapped oracle rest
      (a :: r.1, r.2)
    else
      ([a], false)

/-- The `VirtualDevice::create` (uinput.rs, lines 163-273), against an oracle for
the kernel interactions; `name` is the device name as a byte string.  Returns
the outcome together with the trace of kernel interactions, in order.  The
name length check happens before anything else; then `/dev/uinput` is opened;
then every event bit is declared (panicking on failure); then the touched
event kinds are declared (panicking on failure); then `device_setup` (with
`force_feedback_effects_max` 1 or 0) and `device_create`, each with a
structured error on failure. -/
def VirtualDevice.create (name : List Nat) (event_bits : List EventBit)
    (oracle : UinputAction → Bool) : CreateOutcome × List UinputAction :=
  if name.length ≥ 80 then (.err .DeviceNameTooLong, [])
  else if oracle .openUinput then
    match processBits oracle event_bits ⟨false, false, false, false⟩ with
    | (tr, none) => (.panicked, .openUinput :: tr)
    | (tr, some flags) =>
      if (runUnwrapped oracle (eventKindBits flags)).2 then
        if oracle (.deviceSetup name.length
            (if flags.has_event_force_feedback then 1 else 0)) then
          if oracle .deviceCreate then
            (.ok, .openUinput :: tr ++ (runUnwrapped oracle (eventKindBits flags)).1 ++
              [.deviceSetup name.length (if flags.has_event_force_feedback then 1 else 0),
               .deviceCreate])
          else
            (.err .DeviceCreateFailed,
              .openUinput :: tr ++ (runUnwrapped oracle (eventKindBits flags)).1 ++
                [.deviceSetup name.length (if flags.has_event_force_feedback then 1 else 0),
                 .deviceCreate])
        else
          (.err .DeviceSetupFailed,
            .openUinput :: tr ++ (runUnwrapped oracle (eventKindBits flags)).1 ++
              [.deviceSetup name.length (if flags.has_event_force_feedback then 1 else 0)])
      else
        (.panicked, .openUinput :: tr ++ (runUnwrapped oracle (eventKindBits flags)).1)
  else
    (.err .IoFailure, [.openUinput])

/-- The set-bit positions of one byte, offset by `off`: the specification-side
view of the inner loop of the bitmask decoder. -/
def byteBits (b off : Nat) : List Nat :=
  if b = 0 then []
  else if b % 2 = 1 then off :: byteBits (b / 2) (off + 1)
  else byteBits (b / 2) (off + 1)
termination_by b

/-- The set-bit positions of a byte buffer starting at byte index `i`:
byte `i` contributes positions offset by `i * 8`. -/
def tailBits : List Nat → Nat → List Nat
  | [], _ => []
  | b :: rest, i => byteBits b (i * 8) ++ tailBits rest (i + 1)

/-- The specification of the bitmask decoder, as worded in the claim: exactly
the positions `byte_index * 8 + bit_index` of the set bits, in ascending
order. -/
def setBitPositions (buffer : List Nat) : List Nat :=
  (List.range (8 * buffer.length)).filter fun p => (buffer.getD (p / 8) 0).testBit (p % 8)

/-- The specification value of an arbitrary iterator state: the bits remaining
in the current (shifted) byte at their absolute positions, followed by the
bits of the remaining bytes. -/
def specOf (it : EventBitsIter) : List Nat :=
  byteBits it.byte (it.index * 8 + it.bit) ++
    tailBits (it.buffer.drop (it.index + 1)) (it.index + 1)

/-- A table lookup whose entries all satisfy `rawf p.2 = p.1`, with a fallback
satisfying `rawf (other c) = c`, is a section of `rawf`: this is the
`raw(From(u16)) = u16` law of the `define_enum!` conversions. -/
theorem enumFromTable_raw {α : Type} (rawf : α → Nat) (table : List (Nat × α))
    (other : Nat → α) (code : Nat)
    (htab : ∀ p ∈ table, rawf p.2 = p.1) (hother : ∀ c, rawf (other c) = c) :
    rawf (enumFromTable table other code) = code := by
  unfold enumFromTable
  cases hfind : table.find? (fun p => p.1 = code) with
  | none => exact hother code
  | some p =>
    have hmem := List.mem_of_find?_eq_some hfind
    have hp := List.find?_some hfind
    have hpc : p.1 = code := by simpa using hp
    rw [htab p hmem, hpc]

/-- When a named variant `v` appears in the table only at code `n` (and the
fallback never produces it), the lookup yields `v` exactly at code `n`. -/
theorem enumFromTable_eq_iff {α : Type} (table : List (Nat × α)) (other : Nat → α)
    (code n : Nat) (v : α)
    (hn : enumFromTable table other n = v)
    (huniq : ∀ p ∈ table, p.2 = v → p.1 = n)
    (hother : ∀ c, other c ≠ v) :
    enumFromTable table other code = v ↔ code = n := by
  constructor
  · intro h
    unfold enumFromTable at h
    cases hfind : table.find? (fun p => p.1 = code) with
    | none =>
      rw [hfind] at h
      exact absurd h (hother code)
    | some p =>
      rw [hfind] at h
      have hmem := List.mem_of_find?_eq_some hfind
      have hp := List.find?_some hfind
      have hpc : p.1 = code := by simpa using hp
      rw [← hpc]
      exact huniq p hmem h
  · intro h
    rw [h]
    exact hn

/-- The `Key`: decoding a numeric code and re-encoding gives the code back. -/
theorem Key.raw_fromNat_key (code : Nat) : (Key.fromNat code).raw = code :=
  enumFromTable_raw Key.raw Key.table Key.Other code (by decide) (fun _ => rfl)

/-- The `RelativeAxis`: decoding a numeric code and re-encoding gives the code back. -/
theorem RelativeAxis.raw_fromNat_rel (code : Nat) : (RelativeAxis.fromNat code).raw = code :=
  enumFromTable_raw RelativeAxis.raw RelativeAxis.table RelativeAxis.Other code
    (by decide) (fun _ => rfl)

/-- The `AbsoluteAxis`: decoding a numeric code and re-encoding gives the code back. -/
theorem AbsoluteAxis.raw_fromNat_abs (code : Nat) : (AbsoluteAxis.fromNat code).raw = code :=
  enumFromTable_raw AbsoluteAxis.raw AbsoluteAxis.table AbsoluteAxis.Other code
    (by decide) (fun _ => rfl)

/-- The `EventKind`: decoding a numeric kind and re-encoding gives the kind back. -/
theorem EventKind.raw_fromNat_kind (code : Nat) : (EventKind.fromNat code).raw = code :=
  enumFromTable_raw EventKind.raw EventKind.table EventKind.Other code
    (by decide) (fun _ => rfl)

/-- A numeric kind decodes to `Synchronization` exactly when it is 0. -/
theorem EventKind.fromNat_eq_sync_iff (code : Nat) :
    EventKind.fromNat code = .Synchronization ↔ code = 0 :=
  enumFromTable_eq_iff EventKind.table EventKind.Other code 0 .Synchronization
    (by decide) (by decide) (fun _ h => EventKind.noConfusion h)

/-- A numeric kind decodes to `Key` exactly when it is 1. -/
theorem EventKind.fromNat_eq_key_iff (code : Nat) :
    EventKind.fromNat code = .Key ↔ code = 1 :=
  enumFromTable_eq_iff EventKind.table EventKind.Other code 1 .Key
    (by decide) (by decide) (fun _ h => EventKind.noConfusion h)

/-- A numeric kind decodes to `RelativeAxis` exactly when it is 2. -/
theorem EventKind.fromNat_eq_rel_iff (code : Nat) :
    EventKind.fromNat code = .RelativeAxis ↔ code = 2 :=
  enumFromTable_eq_iff EventKind.table EventKind.Other code 2 .RelativeAxis
    (by decide) (by decide) (fun _ h => EventKind.noConfusion h)

/-- A numeric kind decodes to `AbsoluteAxis` exactly when it is 3. -/
theorem EventKind.fromNat_eq_abs_iff (code : Nat) :
    EventKind.fromNat code = .AbsoluteAxis ↔ code = 3 :=
  enumFromTable_eq_iff EventKind.table EventKind.Other code 3 .AbsoluteAxis
    (by decide) (by decide) (fun _ h => EventKind.noConfusion h)

/-- C2: for every raw input event, the decode direction of the codec follows
exactly the claimed priority rules — kind=Key(1) & value=1 gives KeyPress;
kind=Key(1) & value=0 gives KeyRelease (value=2 falls through to Other);
kind=RelativeAxis(2) gives RelativeMove; kind=AbsoluteAxis(3) gives
AbsoluteMove; kind=Synchronization(0) & code=0 & value=0 gives Flush; & code=3
& value=0 gives Dropped; anything else gives Other with kind, code and value
preserved verbatim (re-encoding the stored kind yields the numeric kind
unchanged, second conjunct). -/
theorem c2_decode_priority_rules :
    (∀ raw : RawInputEvent,
      (InputEvent.fromRaw raw).body = decodeBodySpec raw.kind raw.code raw.value) ∧
    (∀ kind : Nat, (EventKind.fromNat kind).raw = kind) := by
  constructor
  · intro raw
    unfold InputEvent.fromRaw decodeBodySpec
    simp only [EventKind.fromNat_eq_key_iff, EventKind.fromNat_eq_rel_iff,
      EventKind.fromNat_eq_abs_iff, EventKind.fromNat_eq_sync_iff]
  · exact EventKind.raw_fromNat_kind

/-- C1 counterexample: the body `KeyPress (Key.Other 1)` is a modeled,
non-Other variant, but it encodes to (kind 1, code 1, value 1), which decodes
to `KeyPress Key.Escape`: decode(encode(body)) differs from body. -/
theorem c1_roundtrip_counterexample :
    (InputEvent.fromRaw (RawInputEvent.fromEvent
      { timestamp := { sec := 0, usec := 0 }, body := .KeyPress (.Other 1) })).body
        = .KeyPress .Escape ∧
    InputEventBody.KeyPress (.Other 1) ≠ .KeyPress .Escape ∧
    (InputEventBody.KeyPress (.Other 1)).isOther = false := by
  refine ⟨by decide, by decide, by decide⟩

/-- C1 (amended): decode after encode reconstructs every non-Other body whose
embedded codes are canonical (the numeric code of the embedded enum value
decodes back to that same value — this excludes only aliases such as
`Key.Other 1`, whose code re-decodes to the named variant `Key.Escape`); and
for every raw triple that the decode rules recognize as a modeled non-Other
variant, encode after decode reproduces the raw record exactly. -/
theorem c1_codec_roundtrip :
    (∀ ts : Timestamp, ∀ body : InputEventBody,
      body.isOther = false → body.canonicalCodes = true →
      (InputEvent.fromRaw (RawInputEvent.fromEvent
        { timestamp := ts, body := body })).body = body) ∧
    (∀ raw : RawInputEvent, (InputEvent.fromRaw raw).body.isOther = false →
      RawInputEvent.fromEvent (InputEvent.fromRaw raw) = raw) := by
  constructor
  · intro ts body h1 h2
    cases body with
    | KeyPress key =>
      simp only [InputEventBody.canonicalCodes, decide_eq_true_eq] at h2
      simp [InputEvent.fromRaw, RawInputEvent.fromEvent, EventKind.raw,
        EventKind.fromNat_eq_key_iff, EventKind.fromNat_eq_rel_iff,
        EventKind.fromNat_eq_abs_iff, EventKind.fromNat_eq_sync_iff, h2]
    | KeyRelease key =>
      simp only [InputEventBody.canonicalCodes, decide_eq_true_eq] at h2
      simp [InputEvent.fromRaw, RawInputEvent.fromEvent, EventKind.raw,
        EventKind.fromNat_eq_key_iff, EventKind.fromNat_eq_rel_iff,
        EventKind.fromNat_eq_abs_iff, EventKind.fromNat_eq_sync_iff, h2]
    | RelativeMove axis delta =>
      simp only [InputEventBody.canonicalCodes, decide_eq_true_eq] at h2
      simp [InputEvent.fromRaw, RawInputEvent.fromEvent, EventKind.raw,
        EventKind.fromNat_eq_key_iff, EventKind.fromNat_eq_rel_iff,
        EventKind.fromNat_eq_abs_iff, EventKind.fromNat_eq_sync_iff, h2]
    | AbsoluteMove axis position =>
      simp only [InputEventBody.canonicalCodes, decide_eq_true_eq] at h2
      simp [InputEvent.fromRaw, RawInputEvent.fromEvent, EventKind.raw,
        EventKind.fromNat_eq_key_iff, EventKind.fromNat_eq_rel_iff,
        EventKind.fromNat_eq_abs_iff, EventKind.fromNat_eq_sync_iff, h2]
    | Flush =>
      simp [InputEvent.fromRaw, RawInputEvent.fromEvent, EventKind.raw,
        EventKind.fromNat_eq_key_iff, EventKind.fromNat_eq_rel_iff,
        EventKind.fromNat_eq_abs_iff, EventKind.fromNat_eq_sync_iff]
    | Dropped =>
      simp [InputEvent.fromRaw, RawInputEvent.fromEvent, EventKind.raw,
        EventKind.fromNat_eq_key_iff, EventKind.fromNat_eq_rel_iff,
        EventKind.fromNat_eq_abs_iff, EventKind.fromNat_eq_sync_iff]
    | Other kind code value =>
      simp [InputEventBody.isOther] at h1
  · intro raw h
    obtain ⟨ts, kind, code, value⟩ := raw
    unfold InputEvent.fromRaw at h ⊢
    simp only [EventKind.fromNat_eq_key_iff, EventKind.fromNat_eq_rel_iff,
      EventKind.fromNat_eq_abs_iff, EventKind.fromNat_eq_sync_iff] at h ⊢
    split_ifs at h ⊢ with h1 h2 h3 h4 h5 h6 <;>
      simp_all [RawInputEvent.fromEvent, EventKind.raw, Key.raw_fromNat_key,
        RelativeAxis.raw_fromNat_rel, AbsoluteAxis.raw_fromNat_abs, EventKind.raw_fromNat_kind,
        InputEventBody.isOther]

/-- Witness for C1 at concrete inputs: `KeyPress Escape` round-trips, and the
raw record (kind 2, code 8, value −3) — recognized as RelativeMove —
round-trips on the raw side. -/
theorem c1_codec_roundtrip_witness :
    (InputEvent.fromRaw (RawInputEvent.fromEvent
      { timestamp := { sec := 5, usec := 6 }, body := .KeyPress .Escape })).body
        = .KeyPress .Escape ∧
    RawInputEvent.fromEvent (InputEvent.fromRaw
      { timestamp := { sec := 5, usec := 6 }, kind := 2, code := 8, value := -3 }) =
      { timestamp := { sec := 5, usec := 6 }, kind := 2, code := 8, value := -3 } :=
  ⟨c1_codec_roundtrip.1 { sec := 5, usec := 6 } (.KeyPress .Escape) (by decide) (by decide),
   c1_codec_roundtrip.2 { timestamp := { sec := 5, usec := 6 }, kind := 2, code := 8, value := -3 }
     (by decide)⟩

/-- C3 counterexample: an effect with a finite duration of zero milliseconds
encodes to a zero-length replay field, which decodes back to `Infinite` — not
to a zero (finite) duration. -/
theorem c3_zero_duration_counterexample :
    (ForceFeedbackEffect.fromRaw (RawForceFeedbackEffect.fromEffect
      { id := 0, direction := 0, kind := .Rumble 1 2,
        duration := .Finite { secs := 0, nanos := 0 },
        delay := { secs := 0, nanos := 0 },
        trigger := { button := 0, interval := 0 } })).map (fun e => e.duration)
      = some .Infinite ∧
    ForceFeedbackDuration.Infinite.isFiniteZero = false ∧
    (ForceFeedbackDuration.Finite { secs := 0, nanos := 0 }).isFiniteZero = true := by
  refine ⟨by decide, by decide, by decide⟩

/-- C3 (amended): encoding clamps any finite duration above 32767 ms to
exactly 32767; `Infinite` encodes to a zero-length replay field, and a
zero-length field decodes back to `Infinite`; a finite duration of zero
milliseconds also encodes to a zero-length field and therefore decodes back
to `Infinite` (zero and infinite are conflated on the wire), not to a zero
finite duration. -/
theorem c3_duration_clamp :
    (∀ effect : ForceFeedbackEffect, ∀ d : Duration,
      effect.duration = .Finite d → d.asMillis > 32767 →
      (RawForceFeedbackEffect.fromEffect effect).replay.length = 32767) ∧
    (∀ effect : ForceFeedbackEffect, effect.duration = .Infinite →
      (RawForceFeedbackEffect.fromEffect effect).replay.length = 0) ∧
    (∀ raw : RawForceFeedbackEffect, ∀ e : ForceFeedbackEffect,
      raw.replay.length = 0 → ForceFeedbackEffect.fromRaw raw = some e →
      e.duration = .Infinite) ∧
    (∀ effect : ForceFeedbackEffect, ∀ d : Duration,
      effect.duration = .Finite d → d.asMillis = 0 →
      (RawForceFeedbackEffect.fromEffect effect).replay.length = 0 ∧
      ∀ e : ForceFeedbackEffect,
        ForceFeedbackEffect.fromRaw (RawForceFeedbackEffect.fromEffect effect) = some e →
        e.duration = .Infinite) := by
  have h3 : ∀ (raw : RawForceFeedbackEffect) (e : ForceFeedbackEffect),
      raw.replay.length = 0 → ForceFeedbackEffect.fromRaw raw = some e →
      e.duration = .Infinite := by
    intro raw e hlen hdec
    by_cases hk : raw.kind = FF_RUMBLE
    · simp [ForceFeedbackEffect.fromRaw, ForceFeedbackEffectKind.fromRaw, hk, hlen] at hdec
      subst hdec
      simp
    · simp [ForceFeedbackEffect.fromRaw, ForceFeedbackEffectKind.fromRaw, hk] at hdec
  refine ⟨?_, ?_, h3, ?_⟩
  · intro effect d hdur hms
    simp [RawForceFeedbackEffect.fromEffect, hdur, convert_and_clip, hms]
  · intro effect hdur
    simp [RawForceFeedbackEffect.fromEffect, hdur]
  · intro effect d hdur hms
    have hlen : (RawForceFeedbackEffect.fromEffect effect).replay.length = 0 := by
      simp [RawForceFeedbackEffect.fromEffect, hdur, convert_and_clip, hms]
    exact ⟨hlen, fun e hdec => h3 _ e hlen hdec⟩

/-- Witness for C3 at concrete effects: a 40-second duration clamps to 32767;
an infinite duration encodes to 0; a zero-length raw replay decodes to
`Infinite`; and a zero-millisecond finite duration encodes to 0 and decodes
back to `Infinite`. -/
theorem c3_duration_clamp_witness :
    (RawForceFeedbackEffect.fromEffect
      { id := 0, direction := 0, kind := .Rumble 1 2,
        duration := .Finite { secs := 40, nanos := 0 },
        delay := { secs := 0, nanos := 0 },
        trigger := { button := 0, interval := 0 } }).replay.length = 32767 ∧
    (RawForceFeedbackEffect.fromEffect
      { id := 0, direction := 0, kind := .Rumble 1 2,
        duration := .Infinite,
        delay := { secs := 0, nanos := 0 },
        trigger := { button := 0, interval := 0 } }).replay.length = 0 ∧
    ForceFeedbackDuration.Infinite = .Infinite ∧
    (RawForceFeedbackEffect.fromEffect
      { id := 0, direction := 0, kind := .Rumble 1 2,
        duration := .Finite { secs := 0, nanos := 0 },
        delay := { secs := 0, nanos := 0 },
        trigger := { button := 0, interval := 0 } }).replay.length = 0 :=
  ⟨c3_duration_clamp.1
      { id := 0, direction := 0, kind := .Rumble 1 2,
        duration := .Finite { secs := 40, nanos := 0 },
        delay := { secs := 0, nanos := 0 },
        trigger := { button := 0, interval := 0 } }
      { secs := 40, nanos := 0 } rfl (by decide),
   c3_duration_clamp.2.1
      { id := 0, direction := 0, kind := .Rumble 1 2,
        duration := .Infinite,
        delay := { secs := 0, nanos := 0 },
        trigger := { button := 0, interval := 0 } } rfl,
   c3_duration_clamp.2.2.1
      { kind := 0x50, id := 0, direction := 0,
        trigger := { button := 0, interval := 0 },
        replay := { length := 0, delay := 0 },
        body := { rumble := { strong_magnitude := 3, weak_magnitude := 4 } } }
      { id := 0, direction := 0, kind := .Rumble 3 4,
        duration := .Infinite,
        delay := { secs := 0, nanos := 0 },
        trigger := { button := 0, interval := 0 } } rfl (by decide),
   (c3_duration_clamp.2.2.2
      { id := 0, direction := 0, kind := .Rumble 1 2,
        duration := .Finite { secs := 0, nanos := 0 },
        delay := { secs := 0, nanos := 0 },
        trigger := { button := 0, interval := 0 } }
      { secs := 0, nanos := 0 } rfl (by decide)).1⟩

/-- C5: whenever the underlying `ppoll` wait fails with an interrupted-by-
signal error (EINTR), `poll_read` returns `Ok(false)` — it reports neither
readiness nor an error — for every timeout argument. -/
theorem c5_poll_interrupted_not_ready :
    ∀ timeout : Option Duration,
      poll_read timeout (.failure .Interrupted) = .ok false := by
  intro timeout
  rfl

/-- C7: a fresh force-feedback transaction guard (upload or erase), finalized
any positive number of times (one implicit drop, or an explicit `complete()`
followed by drop, or more), issues the end-upload / end-erase kernel control
exactly once; the `is_finished` flag suppresses every repetition. -/
theorem c7_finalize_exactly_once :
    ∀ request_id effect_id n : Nat, 1 ≤ n →
      (ForceFeedbackEffectUpload.mk0 request_id).finishCount n = 1 ∧
      (ForceFeedbackEffectErase.mk0 request_id effect_id).finishCount n = 1 := by
  have hup : ∀ g : ForceFeedbackEffectUpload, g.is_finished = true →
      ∀ n, g.finishCount n = 0 := by
    intro g hg n
    induction n with
    | zero => rfl
    | succ n ih =>
      simp [ForceFeedbackEffectUpload.finishCount, ForceFeedbackEffectUpload.finish, hg, ih]
  have her : ∀ g : ForceFeedbackEffectErase, g.is_finished = true →
      ∀ n, g.finishCount n = 0 := by
    intro g hg n
    induction n with
    | zero => rfl
    | succ n ih =>
      simp [ForceFeedbackEffectErase.finishCount, ForceFeedbackEffectErase.finish, hg, ih]
  intro request_id effect_id n hn
  obtain ⟨m, rfl⟩ : ∃ m, n = m + 1 := ⟨n - 1, by omega⟩
  constructor
  · simp [ForceFeedbackEffectUpload.finishCount, ForceFeedbackEffectUpload.finish,
      ForceFeedbackEffectUpload.mk0]
    exact hup _ rfl m
  · simp [ForceFeedbackEffectErase.finishCount, ForceFeedbackEffectErase.finish,
      ForceFeedbackEffectErase.mk0]
    exact her _ rfl m

/-- Witness for C7: two finalizations (an explicit `complete()` followed by the
drop) of fresh guards issue exactly one control each. -/
theorem c7_finalize_exactly_once_witness :
    (ForceFeedbackEffectUpload.mk0 7).finishCount 2 = 1 ∧
    (ForceFeedbackEffectErase.mk0 7 3).finishCount 2 = 1 :=
  c7_finalize_exactly_once 7 3 2 (by decide)

/-- C8 (code bug exhibit): `Device::open` tests the `fcntl(F_SETFL)` result
with `< -1`, but `fcntl` signals failure by returning −1, so a failed
F_SETFL (here returning −1 with errno 22) is not detected and `open`
succeeds; the other three failure points are detected (remaining conjuncts),
so the claimed all-three-steps-fail-the-open behavior is violated exactly by
the set-nonblocking step. -/
theorem c8_setfl_failure_not_detected :
    Device.open
      { openResult := none, getflResult := 2, getflErrno := 0,
        setflResult := -1, setflErrno := 22, clockResult := none } = .ok () ∧
    Device.open
      { openResult := some 2, getflResult := 2, getflErrno := 0,
        setflResult := 0, setflErrno := 0, clockResult := none }
      = .error (.openFailed 2) ∧
    Device.open
      { openResult := none, getflResult := -1, getflErrno := 13,
        setflResult := 0, setflErrno := 0, clockResult := none }
      = .error (.getFlagsFailed 13) ∧
    Device.open
      { openResult := none, getflResult := 2, getflErrno := 0,
        setflResult := 0, setflErrno := 0, clockResult := some 25 }
      = .error (.clockSourceFailed 25) := by
  refine ⟨rfl, rfl, rfl, rfl⟩

/-- C10 counterexample: for effect id 0x60 (`FF_GAIN`), enabling with cycle
count 0 emits an event that `poll_force_feedback` classifies as `Other`, not
as a `Disable` request. -/
theorem c10_enable_gain_counterexample :
    classifyForceFeedbackEvent (emittedRawEvent (enableForceFeedbackBody 96 0))
      = .Other 96 0 ∧
    ForceFeedbackRequestView.Other 96 0 ≠ .Disable 96 := by
  refine ⟨by decide, by decide⟩

/-- C10 (amended): for effect ids below `FF_GAIN` (0x60), enabling with a
cycle count ≤ 0 emits an event that `poll_force_feedback` classifies as a
`Disable` request (the classification is value > 0 for Enable, value ≤ 0 for
Disable); and for every effect id, enable with cycle count 0 emits exactly
the same wire record as disable. -/
theorem c10_enable_nonpositive_is_disable :
    (∀ (effect_id : Nat) (cycle_count : Int),
      effect_id < FF_GAIN → cycle_count ≤ 0 →
      classifyForceFeedbackEvent (emittedRawEvent
        (enableForceFeedbackBody effect_id cycle_count)) = .Disable effect_id) ∧
    (∀ effect_id : Nat,
      emittedRawEvent (enableForceFeedbackBody effect_id 0)
        = emittedRawEvent (disableForceFeedbackBody effect_id)) := by
  constructor
  · intro effect_id cycle_count hid hcc
    have hng : ¬(cycle_count > 0) := by omega
    have hid2 : effect_id < 96 := by simpa [FF_GAIN] using hid
    simp [emittedRawEvent, RawInputEvent.fromEvent, enableForceFeedbackBody,
      classifyForceFeedbackEvent, EventKind.raw, EV_UINPUT, UI_FF_UPLOAD,
      UI_FF_ERASE, FF_GAIN, hid2, hng]
  · intro effect_id
    rfl

/-- Witness for C10 at a concrete input: enabling effect 3 with cycle count
−2 classifies as `Disable 3`. -/
theorem c10_enable_nonpositive_is_disable_witness :
    classifyForceFeedbackEvent (emittedRawEvent (enableForceFeedbackBody 3 (-2)))
      = .Disable 3 :=
  c10_enable_nonpositive_is_disable.1 3 (-2) (by decide) (by decide)

/-- A violating absolute-axis descriptor anywhere in the list makes the
capability-declaration loop panic (the `assert!` fires, or an earlier
`unwrap` already panicked). -/
theorem processBits_none_of_violating (oracle : UinputAction → Bool) :
    ∀ (event_bits : List EventBit) (flags : CreateFlags) (d : AbsoluteAxisBit),
      EventBit.AbsoluteAxis d ∈ event_bits → d.maximum < d.minimum →
      (processBits oracle event_bits flags).2 = none := by
  intro event_bits
  induction event_bits with
  | nil => intro flags d hmem; simp at hmem
  | cons b rest ih =>
    intro flags d hmem hviol
    rcases List.mem_cons.mp hmem with hb | hrest
    · subst hb
      by_cases ho : oracle (.setAbsoluteAxisBit d.axis.raw)
      · have hlt : ¬ d.maximum ≥ d.minimum := by omega
        simp [processBits, applyEventBit, ho, hlt]
      · simp [processBits, applyEventBit, ho]
    · unfold processBits
      rcases ha : applyEventBit oracle flags b with ⟨as, fl⟩
      cases fl with
      | none => simp
      | some flags2 => simpa using ih flags2 d hrest hviol

/-- Every `absSetup` issued by one loop iteration carries the descriptor's own
minimum and maximum, in that order, and is only issued after the `assert!`
checked `maximum ≥ minimum`. -/
theorem applyEventBit_absSetup_sound (oracle : UinputAction → Bool)
    (flags : CreateFlags) (b : EventBit)
    (axis : Nat) (value mn mx nt dz rs : Int) :
    UinputAction.absSetup axis value mn mx nt dz rs ∈ (applyEventBit oracle flags b).1 →
    mn ≤ mx := by
  intro hmem
  cases b with
  | Key key => simp [applyEventBit] at hmem
  | RelativeAxis axis2 => simp [applyEventBit] at hmem
  | ForceFeedback bit => simp [applyEventBit] at hmem
  | AbsoluteAxis d =>
    by_cases ho : oracle (.setAbsoluteAxisBit d.axis.raw)
    · by_cases hcmp : d.maximum ≥ d.minimum
      · simp [applyEventBit, ho, hcmp] at hmem
        omega
      · simp [applyEventBit, ho, hcmp] at hmem
    · simp [applyEventBit, ho] at hmem

/-- Every `absSetup` issued by the whole loop has minimum ≤ maximum. -/
theorem processBits_absSetup_sound (oracle : UinputAction → Bool) :
    ∀ (event_bits : List EventBit) (flags : CreateFlags)
      (axis : Nat) (value mn mx nt dz rs : Int),
      UinputAction.absSetup axis value mn mx nt dz rs ∈
        (processBits oracle event_bits flags).1 →
      mn ≤ mx := by
  intro event_bits
  induction event_bits with
  | nil => intro flags axis value mn mx nt dz rs hmem; simp [processBits] at hmem
  | cons b rest ih =>
    intro flags axis value mn mx nt dz rs hmem
    unfold processBits at hmem
    rcases ha : applyEventBit oracle flags b with ⟨as, fl⟩
    rw [ha] at hmem
    have happ := applyEventBit_absSetup_sound oracle flags b axis value mn mx nt dz rs
    rw [ha] at happ
    cases fl with
    | none =>
      simp only at hmem
      exact happ hmem
    | some flags2 =>
      simp only [List.mem_append] at hmem
      rcases hmem with h | h
      · exact happ h
      · exact ih flags2 axis value mn mx nt dz rs h

/-- The controls issued for the per-kind event bits are a subset of the
requested list. -/
theorem runUnwrapped_subset (oracle : UinputAction → Bool) :
    ∀ (l : List UinputAction) (a : UinputAction),
      a ∈ (runUnwrapped oracle l).1 → a ∈ l := by
  intro l
  induction l with
  | nil => intro a h; simp [runUnwrapped] at h
  | cons x rest ih =>
    intro a h
    unfold runUnwrapped at h
    by_cases ho : oracle x
    · rw [if_pos ho] at h
      simp only [List.mem_cons] at h ⊢
      rcases h with h | h
      · exact Or.inl h
      · exact Or.inr (ih a h)
    · rw [if_neg ho] at h
      simp only [List.mem_singleton] at h
      simp [h]

/-- The `eventKindBits` only ever contains `setEventBit` controls. -/
theorem eventKindBits_no_absSetup (flags : CreateFlags)
    (axis : Nat) (value mn mx nt dz rs : Int) :
    UinputAction.absSetup axis value mn mx nt dz rs ∉ eventKindBits flags := by
  unfold eventKindBits
  split_ifs <;> simp

/-- C6: `VirtualDevice::create` with a name of byte length ≥ 80 fails with
`DeviceNameTooLong` before any kernel interaction (the trace is empty, so
`/dev/uinput` is not even opened); a name of byte length 79 passes the
validation and proceeds to the kernel calls (the first interaction of the
trace is opening `/dev/uinput`). -/
theorem c6_name_length_validation :
    ∀ (name : List Nat) (event_bits : List EventBit) (oracle : UinputAction → Bool),
      (80 ≤ name.length →
        VirtualDevice.create name event_bits oracle = (.err .DeviceNameTooLong, [])) ∧
      (name.length = 79 →
        (VirtualDevice.create name event_bits oracle).2.head? = some .openUinput) := by
  intro name event_bits oracle
  constructor
  · intro h
    unfold VirtualDevice.create
    rw [if_pos h]
  · intro h
    unfold VirtualDevice.create
    rw [if_neg (by omega)]
    by_cases ho : oracle .openUinput = true
    · rw [if_pos ho]
      rcases hp : processBits oracle event_bits ⟨false, false, false, false⟩ with ⟨tr, fl⟩
      cases fl with
      | none => simp
      | some flags =>
        repeat' split
        all_goals rfl
    · rw [if_neg ho]
      simp

/-- Witness for C6 at concrete inputs: an 80-byte name is rejected with an
empty trace, and a 79-byte name proceeds to opening `/dev/uinput`. -/
theorem c6_name_length_validation_witness :
    VirtualDevice.create (List.replicate 80 65) [] (fun _ => true)
      = (.err .DeviceNameTooLong, []) ∧
    (VirtualDevice.create (List.replicate 79 65) [] (fun _ => true)).2.head?
      = some .openUinput :=
  ⟨(c6_name_length_validation (List.replicate 80 65) [] (fun _ => true)).1 (by decide),
   (c6_name_length_validation (List.replicate 79 65) [] (fun _ => true)).2 (by decide)⟩

/-- C9: an `AbsoluteAxisBit` with `maximum < minimum` is never accepted
silently: a `VirtualDevice::create` whose capability list contains one never
returns a device (the `assert!(maximum >= minimum)` panics before the axis is
configured, unless an earlier failure already aborted the call), and no
`abs_setup` control ever carries a swapped pair — every `abs_setup` issued by
`create` has minimum ≤ maximum. -/
theorem c9_abs_axis_validation :
    ∀ (name : List Nat) (event_bits : List EventBit) (oracle : UinputAction → Bool),
      (∀ d : AbsoluteAxisBit, EventBit.AbsoluteAxis d ∈ event_bits →
        d.maximum < d.minimum →
        (VirtualDevice.create name event_bits oracle).1 ≠ .ok) ∧
      (∀ (axis : Nat) (value mn mx nt dz rs : Int),
        UinputAction.absSetup axis value mn mx nt dz rs ∈
          (VirtualDevice.create name event_bits oracle).2 →
        mn ≤ mx) := by
  intro name event_bits oracle
  constructor
  · intro d hmem hviol
    unfold VirtualDevice.create
    by_cases hn : name.length ≥ 80
    · rw [if_pos hn]; simp
    · rw [if_neg hn]
      by_cases ho : oracle .openUinput = true
      · rw [if_pos ho]
        have hp2 := processBits_none_of_violating oracle event_bits
          ⟨false, false, false, false⟩ d hmem hviol
        rcases hp : processBits oracle event_bits ⟨false, false, false, false⟩ with ⟨tr, fl⟩
        rw [hp] at hp2
        cases fl with
        | none => simp
        | some flags => simp at hp2
      · rw [if_neg ho]; simp
  · intro axis value mn mx nt dz rs hmem
    unfold VirtualDevice.create at hmem
    by_cases hn : name.length ≥ 80
    · rw [if_pos hn] at hmem; simp at hmem
    · rw [if_neg hn] at hmem
      by_cases ho : oracle .openUinput = true
      · rw [if_pos ho] at hmem
        have hps := processBits_absSetup_sound oracle event_bits
          ⟨false, false, false, false⟩ axis value mn mx nt dz rs
        rcases hp : processBits oracle event_bits ⟨false, false, false, false⟩ with ⟨tr, fl⟩
        cases fl with
        | none =>
          simp only [hp] at hmem hps
          simp at hmem
          exact hps hmem
        | some flags =>
          simp only [hp] at hmem hps
          repeat' split at hmem
          all_goals (
            simp at hmem
            rcases hmem with h | h
            exacts [hps h,
              absurd (runUnwrapped_subset oracle _ _ h)
                (eventKindBits_no_absSetup flags axis value mn mx nt dz rs)])
      · rw [if_neg ho] at hmem
        simp at hmem

/-- Witness for C9 at a concrete input: a descriptor with minimum 5 and
maximum 3 makes `create` fail (it panics at the assertion), and in particular
the outcome is not `ok`. -/
theorem c9_abs_axis_validation_witness :
    (VirtualDevice.create (List.replicate 10 65)
      [.AbsoluteAxis
        { axis := .X, initial_value := 0, minimum := 5, maximum := 3,
          noise_threshold := 0, deadzone := 0, resolution := 0 }]
      (fun _ => true)).1 ≠ .ok :=
  (c9_abs_axis_validation (List.replicate 10 65)
    [.AbsoluteAxis
      { axis := .X, initial_value := 0, minimum := 5, maximum := 3,
        noise_threshold := 0, deadzone := 0, resolution := 0 }]
    (fun _ => true)).1
    { axis := .X, initial_value := 0, minimum := 5, maximum := 3,
      noise_threshold := 0, deadzone := 0, resolution := 0 }
    (by decide) (by decide)

/-- The `byteBits` of a zero byte is empty. -/
theorem byteBits_zero (off : Nat) : byteBits 0 off = [] := by
  unfold byteBits
  simp

/-- Shifting the offset of `byteBits` shifts every emitted position. -/
theorem byteBits_shift (b : Nat) : ∀ k c : Nat,
    byteBits b (c + k) = (byteBits b k).map (c + ·) := by
  induction b using Nat.strong_induction_on with
  | _ b ih =>
    intro k c
    by_cases hb : b = 0
    · subst hb; simp [byteBits_zero]
    · by_cases hodd : b % 2 = 1
      · unfold byteBits
        rw [if_neg hb, if_neg hb, if_pos hodd, if_pos hodd]
        have := ih (b / 2) (by omega) (k + 1) c
        simp only [List.map_cons]
        rw [show c + k + 1 = c + (k + 1) by omega, this]
      · unfold byteBits
        rw [if_neg hb, if_neg hb, if_neg hodd, if_neg hodd]
        have := ih (b / 2) (by omega) (k + 1) c
        rw [show c + k + 1 = c + (k + 1) by omega, this]

/-- The `stripLowBits` computes the head of `byteBits` on a nonzero byte: the
first set-bit position, the remaining shifted byte, and the tail. -/
theorem stripLowBits_spec (b : Nat) : ∀ bit : Nat, b ≠ 0 →
    byteBits b bit =
      (stripLowBits b bit).2 :: byteBits ((stripLowBits b bit).1 / 2) ((stripLowBits b bit).2 + 1) := by
  induction b using Nat.strong_induction_on with
  | _ b ih =>
    intro bit hb
    by_cases hodd : b % 2 = 1
    · have hs : stripLowBits b bit = (b, bit) := by
        rw [stripLowBits]
        rw [if_neg (by omega : ¬ b % 2 = 0)]
      rw [hs]
      rw [byteBits]
      rw [if_neg hb, if_pos hodd]
    · have heven : b % 2 = 0 := by omega
      have hs : stripLowBits b bit = stripLowBits (b / 2) (bit + 1) := by
        rw [stripLowBits]
        rw [if_pos heven, if_neg hb]
      have hbb : byteBits b bit = byteBits (b / 2) (bit + 1) := by
        rw [byteBits]
        rw [if_neg hb, if_neg hodd]
      rw [hbb, hs]
      exact ih (b / 2) (by omega) (bit + 1) (by omega)

/-- The zero-byte-skipping loop does not change the buffer. -/
theorem EventBitsIter.skipZeros_buffer (it : EventBitsIter) :
    (EventBitsIter.skipZeros it).1.buffer = it.buffer := by
  induction it using EventBitsIter.skipZeros.induct with
  | case1 it h1 h2 => unfold EventBitsIter.skipZeros; simp [h1, h2]
  | case2 it h1 h2 ih => unfold EventBitsIter.skipZeros; simp only [h1, h2]; simpa using ih
  | case3 it h1 => unfold EventBitsIter.skipZeros; simp [h1]

/-- When the zero-byte-skipping loop reports exhaustion, the final state has a
zero current byte and its index is at the last position. -/
theorem EventBitsIter.skipZeros_false (it : EventBitsIter) :
    (EventBitsIter.skipZeros it).2 = false →
      (EventBitsIter.skipZeros it).1.byte = 0 ∧
      (EventBitsIter.skipZeros it).1.buffer.length ≤ (EventBitsIter.skipZeros it).1.index + 1 := by
  induction it using EventBitsIter.skipZeros.induct with
  | case1 it h1 h2 => unfold EventBitsIter.skipZeros; simp [h1, h2]
  | case2 it h1 h2 ih => unfold EventBitsIter.skipZeros; simp only [h1, h2]; simpa using ih
  | case3 it h1 => unfold EventBitsIter.skipZeros; simp [h1]

/-- When the zero-byte-skipping loop reports success, the final state has a
nonzero current byte. -/
theorem EventBitsIter.skipZeros_true_byte (it : EventBitsIter) :
    (EventBitsIter.skipZeros it).2 = true → (EventBitsIter.skipZeros it).1.byte ≠ 0 := by
  induction it using EventBitsIter.skipZeros.induct with
  | case1 it h1 h2 => unfold EventBitsIter.skipZeros; simp [h1, h2]
  | case2 it h1 h2 ih => unfold EventBitsIter.skipZeros; simp only [h1, h2]; simpa using ih
  | case3 it h1 => unfold EventBitsIter.skipZeros; simp [h1]

/-- The zero-byte-skipping loop preserves the specification value of the
state: skipped bytes contribute no bit positions. -/
theorem EventBitsIter.skipZeros_spec (it : EventBitsIter) :
    specOf (EventBitsIter.skipZeros it).1 = specOf it := by
  induction it using EventBitsIter.skipZeros.induct with
  | case1 it h1 h2 => unfold EventBitsIter.skipZeros; simp [h1, h2]
  | case2 it h1 h2 ih =>
    unfold EventBitsIter.skipZeros
    simp only [h1, h2]
    have step : specOf
        { it with index := it.index + 1, byte := it.buffer.getD (it.index + 1) 0, bit := 0 }
          = specOf it := by
      unfold specOf
      simp only [h1, byteBits_zero, List.nil_append]
      have hlt : it.index + 1 < it.buffer.length := by omega
      rw [List.drop_eq_getElem_cons hlt]
      simp only [tailBits]
      rw [List.getD_eq_getElem it.buffer 0 hlt]
      simp
    rw [← step]
    simpa using ih
  | case3 it h1 => unfold EventBitsIter.skipZeros; simp [h1]

/-- Running the iterator to exhaustion yields the specification value of its
state with every position narrowed to u16 (the source's `as u16` cast). -/
theorem EventBitsIter.drain_spec (it : EventBitsIter) :
    it.drain = (specOf it).map (· % 65536) := by
  induction it using EventBitsIter.drain.induct with
  | case1 it it1 hnext =>
    rw [EventBitsIter.drain]
    rw [hnext]
    unfold EventBitsIter.next at hnext
    rcases hs : EventBitsIter.skipZeros it with ⟨it2, ok⟩
    rw [hs] at hnext
    cases ok with
    | true => simp at hnext
    | false =>
      have hf := EventBitsIter.skipZeros_false it
      have hspec := EventBitsIter.skipZeros_spec it
      rw [hs] at hf hspec
      obtain ⟨hbyte, hlen⟩ := hf rfl
      rw [← hspec]
      unfold specOf
      simp only at hbyte hlen ⊢
      rw [hbyte, byteBits_zero, List.drop_eq_nil_of_le hlen]
      simp [tailBits]
  | case2 it v it2 hnext ih =>
    rw [EventBitsIter.drain]
    rw [hnext]
    show v :: it2.drain = (specOf it).map (· % 65536)
    unfold EventBitsIter.next at hnext
    rcases hs : EventBitsIter.skipZeros it with ⟨it1, ok⟩
    rw [hs] at hnext
    cases ok with
    | false => simp at hnext
    | true =>
      have hbyte := EventBitsIter.skipZeros_true_byte it
      have hspec := EventBitsIter.skipZeros_spec it
      rw [hs] at hbyte hspec
      have hb1 : it1.byte ≠ 0 := hbyte rfl
      simp only [Prod.mk.injEq, Option.some.injEq] at hnext
      obtain ⟨hv, hit2⟩ := hnext
      have hstep : specOf it
          = (it1.index * 8 + (stripLowBits it1.byte it1.bit).2) :: specOf it2 := by
        rw [← hspec, ← hit2]
        unfold specOf
        simp only
        rw [byteBits_shift it1.byte it1.bit (it1.index * 8)]
        rw [stripLowBits_spec it1.byte it1.bit hb1]
        rw [byteBits_shift ((stripLowBits it1.byte it1.bit).1 / 2)
          ((stripLowBits it1.byte it1.bit).2 + 1) (it1.index * 8)]
        simp [Nat.add_assoc]
      rw [ih, hstep, List.map_cons]
      simp [hv]

/-- The `byteBits` of a byte below `2^n` is the filtered range of its set bits,
shifted by the offset. -/
theorem byteBits_testBit : ∀ n b : Nat, b < 2 ^ n → ∀ off : Nat,
    byteBits b off = ((List.range n).filter (fun k => b.testBit k)).map (off + ·) := by
  intro n
  induction n with
  | zero =>
    intro b hb off
    have hb0 : b = 0 := by omega
    subst hb0
    simp [byteBits_zero]
  | succ n ih =>
    intro b hb off
    by_cases hb0 : b = 0
    · subst hb0
      simp [byteBits_zero, Nat.zero_testBit]
    · have hmaptail : ∀ l : List Nat, l.map ((off + 1) + ·) = (l.map Nat.succ).map (off + ·) := by
        intro l
        rw [List.map_map]
        apply List.map_congr_left
        intro i _
        simp only [Function.comp_apply]
        omega
      have hsplit : (List.filter (fun k => b.testBit k) (List.map Nat.succ (List.range n)))
          = ((List.range n).filter (fun k => (b / 2).testBit k)).map Nat.succ := by
        rw [List.filter_map]
        congr 1
        apply List.filter_congr
        intro k _
        simp [Function.comp, Nat.testBit_succ]
      rw [List.range_succ_eq_map, List.filter_cons, hsplit]
      by_cases hodd : b % 2 = 1
      · have ht0 : b.testBit 0 = true := by simp [Nat.testBit_zero, hodd]
        rw [ht0]
        simp only [if_true, List.map_cons, Nat.add_zero]
        rw [byteBits]
        rw [if_neg hb0, if_pos hodd]
        rw [ih (b / 2) (by omega) (off + 1), hmaptail]
      · have ht0 : b.testBit 0 = false := by
          simp [Nat.testBit_zero]
          omega
        rw [ht0]
        simp only [Bool.false_eq_true, if_false]
        rw [byteBits]
        rw [if_neg hb0, if_neg hodd]
        rw [ih (b / 2) (by omega) (off + 1), hmaptail]

/-- Shifting the starting byte index of `tailBits` by one shifts every
position by 8. -/
theorem tailBits_shift : ∀ (l : List Nat) (i : Nat),
    tailBits l (i + 1) = (tailBits l i).map (8 + ·) := by
  intro l
  induction l with
  | nil => intro i; rfl
  | cons b rest ih =>
    intro i
    simp only [tailBits]
    rw [show (i + 1) * 8 = 8 + i * 8 by ring]
    rw [byteBits_shift b (i * 8) 8, ih (i + 1), List.map_append]

/-- Peeling one byte off the specification list of set-bit positions. -/
theorem setBitPositions_cons (b : Nat) (rest : List Nat) :
    setBitPositions (b :: rest) =
      ((List.range 8).filter (fun k => b.testBit k)) ++ (setBitPositions rest).map (8 + ·) := by
  unfold setBitPositions
  have h8 : 8 * (b :: rest).length = 8 + 8 * rest.length := by
    simp [List.length_cons]
    ring
  have h1 : List.filter (fun p => ((b :: rest).getD (p / 8) 0).testBit (p % 8)) (List.range 8)
      = (List.range 8).filter (fun k => b.testBit k) := by
    apply List.filter_congr
    intro q hq
    simp only [List.mem_range] at hq
    have hd : q / 8 = 0 := by omega
    have hm : q % 8 = q := by omega
    simp [hd, hm]
  have h2 : List.filter (fun p => ((b :: rest).getD (p / 8) 0).testBit (p % 8))
      ((List.range (8 * rest.length)).map (fun x => 8 + x))
      = ((List.range (8 * rest.length)).filter
          (fun p => (rest.getD (p / 8) 0).testBit (p % 8))).map (fun x => 8 + x) := by
    rw [List.filter_map]
    congr 1
    apply List.filter_congr
    intro q _
    have hdiv : (8 + q) / 8 = q / 8 + 1 := by omega
    have hmod : (8 + q) % 8 = q % 8 := by omega
    simp [Function.comp, hdiv, hmod]
  rw [h8, List.range_add, List.filter_append, h1, h2]

/-- For buffers of genuine bytes, `tailBits` from index 0 is exactly the
filtered-range specification. -/
theorem tailBits_eq_setBitPositions : ∀ buffer : List Nat,
    (∀ b ∈ buffer, b < 256) → tailBits buffer 0 = setBitPositions buffer := by
  intro buffer
  induction buffer with
  | nil => intro _; rfl
  | cons b rest ih =>
    intro hb
    simp only [tailBits]
    rw [setBitPositions_cons]
    congr 1
    · have hby := byteBits_testBit 8 b (hb b (by simp)) 0
      simpa using hby
    · rw [← ih (fun x hx => hb x (by simp [hx]))]
      have := tailBits_shift rest 0
      simpa using this

/-- Draining a freshly constructed iterator yields the buffer's bit
positions, each narrowed to u16. -/
theorem EventBitsIter.drain_new (buffer : List Nat) :
    (EventBitsIter.new buffer).drain = (tailBits buffer 0).map (· % 65536) := by
  rw [EventBitsIter.drain_spec]
  have h : specOf (EventBitsIter.new buffer) = tailBits buffer 0 := by
    unfold specOf EventBitsIter.new
    cases buffer with
    | nil => simp [byteBits_zero, tailBits]
    | cons b rest => simp [tailBits]
  rw [h]

/-- Once `next` reports exhaustion, every further `next` on the resulting
state reports exhaustion again: the iterator is fused. -/
theorem EventBitsIter.next_none_stable (it : EventBitsIter) :
    (it.next).1 = none → ((it.next).2).next.1 = none := by
  intro h
  rcases hs : EventBitsIter.skipZeros it with ⟨it1, ok⟩
  cases ok with
  | true =>
    have hn : it.next.1
        = some ((it1.index * 8 + (stripLowBits it1.byte it1.bit).2) % 65536) := by
      unfold EventBitsIter.next
      rw [hs]
    rw [hn] at h
    simp at h
  | false =>
    have hn : it.next = (none, it1) := by
      unfold EventBitsIter.next
      rw [hs]
    rw [hn]
    show it1.next.1 = none
    have hf := EventBitsIter.skipZeros_false it
    rw [hs] at hf
    obtain ⟨hbyte, hlen⟩ := hf rfl
    have hdone : EventBitsIter.skipZeros it1 = (it1, false) := by
      rw [EventBitsIter.skipZeros]
      rw [if_pos hbyte, if_pos hlen]
    unfold EventBitsIter.next
    rw [hdone]

/-- The `byteBits` of the byte 1 is the single offset position. -/
theorem byteBits_one (off : Nat) : byteBits 1 off = [off] := by
  rw [byteBits]
  simp [byteBits_zero]

/-- A run of zero bytes contributes no bit positions. -/
theorem tailBits_replicate_zero : ∀ n i : Nat, tailBits (List.replicate n 0) i = [] := by
  intro n
  induction n with
  | zero => intro i; rfl
  | succ n ih => intro i; simp [List.replicate_succ, tailBits, byteBits_zero, ih]

/-- The `tailBits` distributes over appending buffers, offsetting the second
part by the length of the first. -/
theorem tailBits_append : ∀ (l1 l2 : List Nat) (i : Nat),
    tailBits (l1 ++ l2) i = tailBits l1 i ++ tailBits l2 (i + l1.length) := by
  intro l1
  induction l1 with
  | nil => intro l2 i; simp [tailBits]
  | cons b rest ih =>
    intro l2 i
    have h1 : tailBits ((b :: rest) ++ l2) i
        = byteBits b (i * 8) ++ tailBits (rest ++ l2) (i + 1) := rfl
    have h2 : tailBits (b :: rest) i = byteBits b (i * 8) ++ tailBits rest (i + 1) := rfl
    rw [h1, h2, ih l2 (i + 1), List.append_assoc, List.length_cons]
    rw [show i + 1 + rest.length = i + (rest.length + 1) from by omega]

/-- C4 counterexample: a buffer of 8192 zero bytes followed by the byte 1 has
its single set bit at position 8192 * 8 = 65536, but the iterator emits that
position narrowed to u16 (`(output as u16)` in the source), yielding 0: for
buffers longer than 8192 bytes the decoder does not yield the positions
`byte_index * 8 + bit_index`. -/
theorem c4_truncation_counterexample :
    (EventBitsIter.new (List.replicate 8192 0 ++ [1])).drain = [0] ∧
    setBitPositions (List.replicate 8192 0 ++ [1]) = [65536] ∧
    ([0] : List Nat) ≠ [65536] := by
  have hB : ∀ b ∈ (List.replicate 8192 0 ++ [1] : List Nat), b < 256 := by
    intro b hb
    rcases List.mem_append.mp hb with h | h
    · rw [List.eq_of_mem_replicate h]
      omega
    · rw [List.mem_singleton.mp h]
      omega
  have htail : tailBits (List.replicate 8192 0 ++ [1]) 0 = [65536] := by
    rw [tailBits_append, tailBits_replicate_zero]
    rw [List.length_replicate]
    show tailBits [1] (0 + 8192) = [65536]
    rw [show 0 + 8192 = 8192 from rfl]
    show byteBits 1 (8192 * 8) ++ tailBits [] (8192 + 1) = [65536]
    rw [show 8192 * 8 = 65536 from by norm_num]
    rw [byteBits_one]
    rfl
  refine ⟨?_, ?_, by decide⟩
  · rw [EventBitsIter.drain_new, htail]
    decide
  · rw [← tailBits_eq_setBitPositions _ hB, htail]

/-- C4 (amended): for every byte buffer of at most 8192 bytes — so that every
bit position fits in a u16 — draining a fresh `EventBitsIter` yields exactly
the positions `byte_index * 8 + bit_index` of the set bits; for arbitrary
buffers it yields those positions narrowed to u16 (the source emits
`(output as u16)`); the position list is strictly ascending, so empty and
all-zero buffers and zero trailing bytes contribute nothing; and the iterator
is fused: after `next` returns nothing it never yields again. -/
theorem c4_bitmask_decoder :
    (∀ buffer : List Nat, (∀ b ∈ buffer, b < 256) → buffer.length ≤ 8192 →
      (EventBitsIter.new buffer).drain = setBitPositions buffer) ∧
    (∀ buffer : List Nat, (∀ b ∈ buffer, b < 256) →
      (EventBitsIter.new buffer).drain = (setBitPositions buffer).map (· % 65536)) ∧
    (∀ buffer : List Nat, (setBitPositions buffer).Pairwise (· < ·)) ∧
    (∀ it : EventBitsIter, (it.next).1 = none → ((it.next).2).next.1 = none) := by
  have hgen : ∀ buffer : List Nat, (∀ b ∈ buffer, b < 256) →
      (EventBitsIter.new buffer).drain = (setBitPositions buffer).map (· % 65536) := by
    intro buffer hb
    rw [EventBitsIter.drain_new, tailBits_eq_setBitPositions buffer hb]
  refine ⟨?_, hgen, ?_, EventBitsIter.next_none_stable⟩
  · intro buffer hb hlen
    rw [hgen buffer hb]
    have hid : ∀ p ∈ setBitPositions buffer, p % 65536 = p := by
      intro p hp
      unfold setBitPositions at hp
      have hr := List.mem_range.mp (List.mem_filter.mp hp).1
      exact Nat.mod_eq_of_lt (by omega)
    rw [List.map_congr_left hid]
    simp
  · intro buffer
    exact List.Pairwise.sublist (List.filter_sublist _) (List.pairwise_lt_range _)

/-- Witness for C4 at the claim's concrete buffers: `[0, 0b1000_0001, 0]`
(3 bytes, well under the u16 bound) drains to `[8, 15]`, and the other test
vectors of the claim evaluate as stated. -/
theorem c4_bitmask_decoder_witness :
    (EventBitsIter.new [0, 129, 0]).drain = setBitPositions [0, 129, 0] ∧
    setBitPositions [0, 129, 0] = [8, 15] ∧
    setBitPositions [1] = [0] ∧
    setBitPositions [128] = [7] ∧
    setBitPositions [129] = [0, 7] ∧
    setBitPositions [] = [] ∧
    setBitPositions [0, 0, 0, 0] = [] :=
  ⟨c4_bitmask_decoder.1 [0, 129, 0] (by decide) (by decide), by decide, by decide,
   by decide, by decide, by decide, by decide⟩
